import Mathlib

/-!
# Verification of the Ordinal-MCP oracle bus (`src/server.py`)

Shallow embedding of the request/response correlation bus. The durable
store (three directories of JSON files) is modelled as `BusState`:

* `requests`  — the open-request partition `REQUESTS_DIR`, an association
  list from the file stem `{request_id}` to the parse outcome of the file
  (`some r` when the JSON parses to a record, `none` when the file is
  malformed and `json.load` would raise);
* `responses` — the open-response partition `RESPONSES_DIR`, likewise;
* `history`   — `HISTORY_DIR`, a list of timestamp-named directories, each
  holding archived `request_{id}.json` / `response_{id}.json` files.

Time is idealised: `oracle_call`'s poll loop checks the store at elapsed
times 0, 2, 4, … seconds (`poll_interval = 2.0`, sleeps exact, loop body
instantaneous), so the check at index `k` runs iff `2 * k < timeout_seconds`
and the wall-clock wait equals two seconds per executed sleep. Concurrent
interference from the responder process is a function `sched` applied to the
store at the start of each loop iteration and — when at least one sleep has
happened — once more before the timeout epilogue, capturing a response that
lands in the final poll-interval wait after the last poll. Operations that
can raise a Python exception (a `json.load` on a malformed record) return
`CallResult.raised`; normal returns are `CallResult.ok` with the exact
result string the Python code builds.

For the archive-transition invariants, the store's reachable states are
additionally generated at single-filesystem-operation granularity
(`BusMicroStep`): `_archive_exchange`'s `mkdir` and its two renames, and
`respond_to_oracle_call`'s response write, are separate steps, so the
model includes every intermediate state a concurrent reader can observe.
-/

/-- Parse outcome of a stored request JSON document
(`id, type, from_level, to_level, question, context, urgency, timestamp, status`). -/
structure ReqRecord where
  id : String
  type : String
  from_level : Int
  to_level : Int
  question : String
  context : String
  urgency : String
  timestamp : String
  status : String
deriving DecidableEq

/-- Parse outcome of a stored response JSON document
(`id, type, question, answer, responder, timestamp`). -/
structure RespRecord where
  id : String
  type : String
  question : String
  answer : String
  responder : String
  timestamp : String
deriving DecidableEq

/-- One timestamp-named directory under `HISTORY_DIR`; its files are keyed by
the request id embedded in the file name (`request_{id}.json`,
`response_{id}.json`), with `none` recording a malformed file's content. -/
structure HistDir where
  name : String
  hreqs : List (String × Option ReqRecord)
  hresps : List (String × Option RespRecord)
deriving DecidableEq

/-- The whole durable store. -/
structure BusState where
  requests : List (String × Option ReqRecord)
  responses : List (String × Option RespRecord)
  history : List HistDir
deriving DecidableEq

/-- The store as created on startup: all three partitions empty. -/
def emptyBus : BusState := ⟨[], [], []⟩

/-- Outcome of one tool invocation: the returned string, or the message of a
raised exception. -/
inductive CallResult where
  | ok (text : String)
  | raised (msg : String)
deriving DecidableEq

/-- `true` iff the invocation returned a result string (did not raise). -/
def CallResult.isOk : CallResult → Bool
  | .ok _ => true
  | .raised _ => false

/-! ## Association-list primitives (files in a directory, keyed by name) -/

/-- Look a file up by name. -/
def lookupKey {α : Type} (k : String) : List (String × α) → Option α
  | [] => none
  | (k', v) :: rest => if k' == k then some v else lookupKey k rest

/-- Create or overwrite a file (`open(path, "w")` / `rename` onto the name). -/
def setKey {α : Type} (k : String) (v : α) : List (String × α) → List (String × α)
  | [] => [(k, v)]
  | (k', v') :: rest => if k' == k then (k, v) :: rest else (k', v') :: setKey k v rest

/-- Remove a file (the source side of a `rename`). -/
def eraseKey {α : Type} (k : String) : List (String × α) → List (String × α)
  | [] => []
  | (k', v') :: rest => if k' == k then eraseKey k rest else (k', v') :: eraseKey k rest

/-- Apply `f` to the (first) history directory named `n`. -/
def updateDir (n : String) (f : HistDir → HistDir) : List HistDir → List HistDir
  | [] => []
  | h :: rest => if h.name == n then f h :: rest else h :: updateDir n f rest

/-! ## Store operations, one per function of `server.py` -/

/-- `_write_request`: dump the record to `REQUESTS_DIR/{request_id}.json`. -/
def write_request (request_id : String) (data : ReqRecord) (s : BusState) : BusState :=
  { s with requests := setKey request_id (some data) s.requests }

/-- `_read_response`: `none` when `RESPONSES_DIR/{request_id}.json` does not
exist; `some none` when it exists but `json.load` raises; `some (some r)`
when it parses. -/
def read_response (request_id : String) (s : BusState) : Option (Option RespRecord) :=
  lookupKey request_id s.responses

/-- `_archive_exchange`: make the timestamp directory (`exist_ok=True`,
unconditionally, even when there is nothing to move), then rename the open
request file and the open response file for `request_id` into it when they
exist. -/
def archive_exchange (ts request_id : String) (s : BusState) : BusState :=
  let hist1 := if s.history.any (fun h => h.name == ts) then s.history
               else s.history ++ [⟨ts, [], []⟩]
  let p2 :=
    match lookupKey request_id s.requests with
    | some c => (eraseKey request_id s.requests,
        updateDir ts (fun h => ⟨h.name, setKey request_id c h.hreqs, h.hresps⟩) hist1)
    | none => (s.requests, hist1)
  let p3 :=
    match lookupKey request_id s.responses with
    | some c => (eraseKey request_id s.responses,
        updateDir ts (fun h => ⟨h.name, h.hreqs, setKey request_id c h.hresps⟩) p2.2)
    | none => (s.responses, p2.2)
  ⟨p2.1, p3.1, p3.2⟩

/-- `respond_to_oracle_call(request_id, answer)`: NotFound string when no
open request file exists; otherwise parse the request (raising on a
malformed file) and overwrite `RESPONSES_DIR/{request_id}.json`. `ts` is
`datetime.now(timezone.utc).isoformat()` at the write. -/
def respond_to_oracle_call (request_id answer ts : String) (s : BusState) :
    CallResult × BusState :=
  match lookupKey request_id s.requests with
  | none => (.ok ("No pending request found with ID: " ++ request_id), s)
  | some none => (.raised "json.decoder.JSONDecodeError", s)
  | some (some request_data) =>
      let response_data : RespRecord :=
        ⟨request_id, "oracle_response", request_data.question, answer, "oracle", ts⟩
      (.ok ("Response recorded for request " ++ request_id ++
            ". The caller will receive it shortly."),
       { s with responses := setKey request_id (some response_data) s.responses })

/-! ## `oracle_call` and its poll loop

`poll_interval = 2.0` seconds; the loop condition is
`time.time() - start_time < timeout_seconds`. Under the idealised timing the
check at poll index `k` runs iff `2 * k < timeout_seconds`, so the number of
loop iterations is `numPolls timeout_seconds`, fixed up front and used as
fuel. `sched k` is the interference the concurrently running responder
applies to the store between the previous iteration and poll `k`. -/

/-- Number of loop-condition successes: `#{k : Nat | 2 * k < t}`. -/
def numPolls (t : Int) : Nat := if t ≤ 0 then 0 else ((t + 1) / 2).toNat

/-- Trace of one `oracle_call` run: the returned value, the final store, the
number of `_read_response` lookups performed and the number of 2-second
sleeps awaited (wall-clock wait `= 2 * sleeps` seconds). -/
structure RunOut where
  result : CallResult
  state : BusState
  polls : Nat
  sleeps : Nat
deriving DecidableEq

/-- The success return string `f"Oracle response ({responder}): {answer}"`. -/
def successMsg (responder answer : String) : String :=
  "Oracle response (" ++ responder ++ "): " ++ answer

/-- The timeout return string. -/
def timeoutMsg (t : Int) (request_id : String) : String :=
  "Oracle call timed out after " ++ toString t ++
  "s. The oracle did not respond. Request ID: " ++ request_id

/-- The poll loop of `oracle_call`, plus the timeout epilogue once the fuel
(remaining in-budget condition checks) runs out: rewrite the request with
`status = "timeout"`, archive, return the timeout string. `aStamp` is the
`%Y%m%d_%H%M%S` timestamp `_archive_exchange` would use.

The epilogue is reached with `k = numPolls t`. When `k > 0`, the failed poll
`k - 1` was followed by a full poll-interval sleep before the deadline
re-check, and the responder may write during that final window — after the
last poll, possibly still before the deadline — so `sched k` is applied
before the epilogue's own writes; a response landing there is never read by
a poll, yet is archived by the epilogue's `_archive_exchange`. When `k = 0`
(`timeout_seconds ≤ 0`) no sleep ever happens: under the idealised timing no
wall-clock time passes inside the call and there is no interference
point. -/
def pollLoop (request_id aStamp : String) (request_data : ReqRecord) (t : Int)
    (sched : Nat → BusState → BusState) : Nat → Nat → BusState → RunOut
  | k, 0, s =>
      let s' := if k == 0 then s else sched k s
      let rd := { request_data with status := "timeout" }
      let s1 := write_request request_id rd s'
      let s2 := archive_exchange aStamp request_id s1
      ⟨.ok (timeoutMsg t request_id), s2, 0, 0⟩
  | k, fuel + 1, s =>
      let s' := sched k s
      match read_response request_id s' with
      | some (some response) =>
          let s2 := archive_exchange aStamp request_id s'
          let answer := response.answer
          let responder := response.responder
          ⟨.ok (successMsg responder answer), s2, 1, 0⟩
      | some none => ⟨.raised "json.decoder.JSONDecodeError", s', 1, 0⟩
      | none =>
          let o := pollLoop request_id aStamp request_data t sched (k + 1) fuel s'
          ⟨o.result, o.state, o.polls + 1, o.sleeps + 1⟩

/-- `oracle_call(question, context, urgency, timeout_seconds)`. The
nondeterministic inputs are made explicit: `request_id` is the generated
`str(uuid.uuid4())[:8]`, `ts` the creation timestamp, `aStamp` the archive
timestamp, `sched` the responder's interference. -/
def oracle_call (question context urgency : String) (timeout_seconds : Int)
    (request_id ts aStamp : String) (sched : Nat → BusState → BusState)
    (s : BusState) : RunOut :=
  let request_data : ReqRecord :=
    ⟨request_id, "oracle_call", 2, 3, question, context, urgency, ts, "pending"⟩
  let s1 := write_request request_id request_data s
  pollLoop request_id aStamp request_data timeout_seconds sched 0
    (numPolls timeout_seconds) s1

/-- The no-responder schedule: nothing touches the store between polls. -/
def idSched : Nat → BusState → BusState := fun _ s => s

/-- The schedule in which the responder invokes
`respond_to_oracle_call(request_id, answer)` (at time `tsR`) in the gap
just before poll index `j`, and nothing else happens. -/
def respondSched (j : Nat) (request_id answer tsR : String) :
    Nat → BusState → BusState :=
  fun k s => if k == j then (respond_to_oracle_call request_id answer tsR s).2 else s

/-! ## Listing operations

Python's `sorted` over paths in one directory orders by file name;
Python compares strings lexicographically by code point. -/

/-- Code-point lexicographic order on char lists. -/
def charListLt : List Char → List Char → Bool
  | [], [] => false
  | [], _ :: _ => true
  | _ :: _, [] => false
  | a :: as, b :: bs =>
      if a.toNat < b.toNat then true
      else if b.toNat < a.toNat then false
      else charListLt as bs

/-- Python `<` on strings. -/
def strLt (a b : String) : Bool := charListLt a.data b.data

/-- Python `str.upper()` (ASCII payloads only in this program). -/
def strUpper (s : String) : String := ⟨s.data.map Char.toUpper⟩

/-- Insert into an ascending-by-key list, stably. -/
def insertByKey {α : Type} (p : String × α) :
    List (String × α) → List (String × α)
  | [] => [p]
  | q :: rest => if strLt q.1 p.1 then q :: insertByKey p rest else p :: q :: rest

/-- `sorted(...)` over a directory's files, ascending by name. -/
def sortByKey {α : Type} : List (String × α) → List (String × α)
  | [] => []
  | p :: rest => insertByKey p (sortByKey rest)

/-- Insert into a descending-by-name list of history directories, stably. -/
def insertDirDesc (h : HistDir) : List HistDir → List HistDir
  | [] => [h]
  | g :: rest => if strLt h.name g.name then g :: insertDirDesc h rest else h :: g :: rest

/-- `sorted(HISTORY_DIR.iterdir(), reverse=True)`. -/
def sortDirsDesc : List HistDir → List HistDir
  | [] => []
  | h :: rest => insertDirDesc h (sortDirsDesc rest)

/-- `"\n".join(lines)`. -/
def joinLines (lines : List String) : String := String.intercalate "\n" lines

/-- The pending-request lines of `bus_status`
(`f"  [{id}] {URGENCY}: {question[:60]}"`); the fold raises at the first
record whose `json.load` fails. -/
def statusPendingLines : List (String × Option ReqRecord) →
    Except String (List String)
  | [] => .ok []
  | (_, none) :: _ => .error "json.decoder.JSONDecodeError"
  | (_, some req) :: rest =>
      (statusPendingLines rest).map
        (fun ls => ("  [" ++ req.id ++ "] " ++ strUpper req.urgency ++ ": " ++
                    req.question.take 60) :: ls)

/-- `bus_status()`. `busDir` is the `BUS_DIR` path string shown in the
header. -/
def bus_status (busDir : String) (s : BusState) : CallResult :=
  let head :=
    ["=== Ordinal Bus Status ===",
     "Bus directory: " ++ busDir,
     "Pending requests: " ++ toString s.requests.length,
     "Pending responses: " ++ toString s.responses.length,
     "Historical exchanges: " ++ toString s.history.length,
     ""]
  if s.requests.isEmpty then .ok (joinLines head)
  else
    match statusPendingLines (sortByKey s.requests) with
    | .error e => .raised e
    | .ok ls => .ok (joinLines (head ++ ["--- Pending Requests ---"] ++ ls ++ [""]))

/-- The per-request block of `list_pending_calls`; raises at the first
malformed record. -/
def pendingBlocks : List (String × Option ReqRecord) → Except String (List String)
  | [] => .ok []
  | (_, none) :: _ => .error "json.decoder.JSONDecodeError"
  | (_, some req) :: rest =>
      (pendingBlocks rest).map
        (fun ls =>
          ["Request ID: " ++ req.id,
           "  Question: " ++ req.question,
           "  Context: " ++ req.context,
           "  Urgency: " ++ req.urgency,
           "  Time: " ++ req.timestamp,
           "  Status: " ++ req.status,
           ""] ++ ls)

/-- `list_pending_calls()`. -/
def list_pending_calls (s : BusState) : CallResult :=
  if s.requests.isEmpty then .ok "No pending oracle calls on the bus."
  else
    match pendingBlocks (sortByKey s.requests) with
    | .error e => .raised e
    | .ok ls => .ok (joinLines (["=== Pending Oracle Calls ===", ""] ++ ls))

/-- Request lines of one history directory in `bus_history`. -/
def histReqLines : List (String × Option ReqRecord) → Except String (List String)
  | [] => .ok []
  | (_, none) :: _ => .error "json.decoder.JSONDecodeError"
  | (_, some req) :: rest =>
      (histReqLines rest).map
        (fun ls =>
          ["[" ++ req.id ++ "] Q: " ++ req.question.take 80,
           "  Urgency: " ++ req.urgency ++ " | Status: " ++ req.status] ++ ls)

/-- Response lines of one history directory in `bus_history`. -/
def histRespLines : List (String × Option RespRecord) → Except String (List String)
  | [] => .ok []
  | (_, none) :: _ => .error "json.decoder.JSONDecodeError"
  | (_, some resp) :: rest =>
      (histRespLines rest).map
        (fun ls =>
          ["  A: " ++ resp.answer.take 80,
           "  Responder: " ++ resp.responder] ++ ls)

/-- All lines for a list of history directories. -/
def histDirLines : List HistDir → Except String (List String)
  | [] => .ok []
  | h :: rest => do
      let rl ← histReqLines h.hreqs
      let pl ← histRespLines h.hresps
      let tl ← histDirLines rest
      .ok (rl ++ pl ++ ["  Archived: " ++ h.name, ""] ++ tl)

/-- `bus_history(limit)`: most-recent-first directories, truncated to
`limit` before rendering (and before the empty check). -/
def bus_history (limit : Nat) (s : BusState) : CallResult :=
  let dirs := (sortDirsDesc s.history).take limit
  if dirs.isEmpty then .ok "No history on the bus yet."
  else
    match histDirLines dirs with
    | .error e => .raised e
    | .ok ls => .ok (joinLines (["=== Ordinal Bus History ===", ""] ++ ls))

/-! ## Observability predicates -/

/-- `id` has a record in an open partition (requests or responses). -/
def openHasB (s : BusState) (id : String) : Bool :=
  (lookupKey id s.requests).isSome || (lookupKey id s.responses).isSome

/-- `id` has an archived file (`request_{id}.json` or `response_{id}.json`)
in some history directory. -/
def archHasB (s : BusState) (id : String) : Bool :=
  s.history.any (fun h => (lookupKey id h.hreqs).isSome || (lookupKey id h.hresps).isSome)

/-- All archived request-file contents for `id`, in directory order. -/
def archReqRecords (s : BusState) (id : String) : List (Option ReqRecord) :=
  s.history.filterMap (fun h => lookupKey id h.hreqs)

/-- All archived response-file contents for `id`, in directory order. -/
def archRespRecords (s : BusState) (id : String) : List (Option RespRecord) :=
  s.history.filterMap (fun h => lookupKey id h.hresps)

/-- Every stored record in every partition parses. -/
def wellFormedB (s : BusState) : Bool :=
  s.requests.all (fun p => p.2.isSome) &&
  s.responses.all (fun p => p.2.isSome) &&
  s.history.all (fun h => h.hreqs.all (fun p => p.2.isSome) &&
                          h.hresps.all (fun p => p.2.isSome))

/-! ## Lemmas about the association-list primitives -/

theorem lookupKey_setKey_self {α : Type} (k : String) (v : α) (l : List (String × α)) :
    lookupKey k (setKey k v l) = some v := by
  induction l with
  | nil => simp [setKey, lookupKey]
  | cons p rest ih =>
      by_cases h : p.1 == k
      · cases p; simp_all [setKey, lookupKey]
      · cases p; simp_all [setKey, lookupKey]

theorem lookupKey_setKey_ne {α : Type} {k k' : String} (v : α) (l : List (String × α))
    (h : k' ≠ k) : lookupKey k' (setKey k v l) = lookupKey k' l := by
  have hkk' : (k == k') = false := beq_eq_false_iff_ne.mpr (Ne.symm h)
  induction l with
  | nil => simp [setKey, lookupKey, hkk']
  | cons p rest ih =>
      obtain ⟨a, b⟩ := p
      by_cases hp : a = k
      · subst hp; simp [setKey, lookupKey, hkk']
      · have hpk : (a == k) = false := beq_eq_false_iff_ne.mpr hp
        simp [setKey, lookupKey, hpk, ih]

theorem lookupKey_eraseKey_self {α : Type} (k : String) (l : List (String × α)) :
    lookupKey k (eraseKey k l) = none := by
  induction l with
  | nil => simp [eraseKey, lookupKey]
  | cons p rest ih =>
      by_cases h : p.1 == k
      · cases p; simp_all [eraseKey]
      · cases p; simp_all [eraseKey, lookupKey]

theorem lookupKey_eraseKey_ne {α : Type} {k k' : String} (l : List (String × α))
    (h : k' ≠ k) : lookupKey k' (eraseKey k l) = lookupKey k' l := by
  have hkk' : (k == k') = false := beq_eq_false_iff_ne.mpr (Ne.symm h)
  induction l with
  | nil => simp [eraseKey]
  | cons p rest ih =>
      obtain ⟨a, b⟩ := p
      by_cases hp : a = k
      · subst hp; simp [eraseKey, lookupKey, ih, hkk']
      · have hpk : (a == k) = false := beq_eq_false_iff_ne.mpr hp
        simp [eraseKey, lookupKey, hpk, ih]

theorem setKey_setKey_self {α : Type} (k : String) (v w : α) (l : List (String × α)) :
    setKey k v (setKey k w l) = setKey k v l := by
  induction l with
  | nil => simp [setKey]
  | cons p rest ih =>
      by_cases h : p.1 == k
      · cases p; simp_all [setKey]
      · cases p; simp_all [setKey]

theorem updateDir_any_congr {n : String} {f : HistDir → HistDir} {p : HistDir → Bool}
    (hf : ∀ h, p (f h) = p h) (l : List HistDir) :
    (updateDir n f l).any p = l.any p := by
  induction l with
  | nil => rfl
  | cons h rest ih =>
      cases hn : h.name == n
      · simp [updateDir, hn, ih]
      · simp [updateDir, hn, hf]

theorem updateDir_filterMap_congr {β : Type} {n : String} {f : HistDir → HistDir}
    {g : HistDir → Option β} (hf : ∀ h, g (f h) = g h) (l : List HistDir) :
    (updateDir n f l).filterMap g = l.filterMap g := by
  induction l with
  | nil => rfl
  | cons h rest ih =>
      cases hn : h.name == n
      · simp [updateDir, hn, List.filterMap_cons, ih]
      · simp [updateDir, hn, List.filterMap_cons, hf]

/-! ## How `archive_exchange` acts on each observability predicate -/

theorem openHasB_archive_self (ts id : String) (s : BusState) :
    openHasB (archive_exchange ts id s) id = false := by
  unfold openHasB archive_exchange
  cases hr : lookupKey id s.requests <;> cases hp : lookupKey id s.responses <;>
    simp [hr, hp, lookupKey_eraseKey_self]

theorem openHasB_archive_ne (ts : String) {id id' : String} (hne : id' ≠ id)
    (s : BusState) : openHasB (archive_exchange ts id s) id' = openHasB s id' := by
  unfold openHasB archive_exchange
  cases hr : lookupKey id s.requests <;> cases hp : lookupKey id s.responses <;>
    simp [hr, hp, lookupKey_eraseKey_ne _ hne]

theorem archHasB_archive_ne (ts : String) {id id' : String} (hne : id' ≠ id)
    (s : BusState) : archHasB (archive_exchange ts id s) id' = archHasB s id' := by
  have hreq : ∀ (c : Option ReqRecord) (l : List HistDir),
      (updateDir ts (fun h => (⟨h.name, setKey id c h.hreqs, h.hresps⟩ : HistDir)) l).any
        (fun h => (lookupKey id' h.hreqs).isSome || (lookupKey id' h.hresps).isSome) =
      l.any (fun h => (lookupKey id' h.hreqs).isSome || (lookupKey id' h.hresps).isSome) :=
    fun c l => updateDir_any_congr (fun h => by simp [lookupKey_setKey_ne _ _ hne]) l
  have hresp : ∀ (c : Option RespRecord) (l : List HistDir),
      (updateDir ts (fun h => (⟨h.name, h.hreqs, setKey id c h.hresps⟩ : HistDir)) l).any
        (fun h => (lookupKey id' h.hreqs).isSome || (lookupKey id' h.hresps).isSome) =
      l.any (fun h => (lookupKey id' h.hreqs).isSome || (lookupKey id' h.hresps).isSome) :=
    fun c l => updateDir_any_congr (fun h => by simp [lookupKey_setKey_ne _ _ hne]) l
  have happ : (s.history ++ [(⟨ts, [], []⟩ : HistDir)]).any
        (fun h => (lookupKey id' h.hreqs).isSome || (lookupKey id' h.hresps).isSome) =
      s.history.any
        (fun h => (lookupKey id' h.hreqs).isSome || (lookupKey id' h.hresps).isSome) := by
    simp [List.any_append, lookupKey]
  unfold archHasB archive_exchange
  cases hr : lookupKey id s.requests <;> cases hp : lookupKey id s.responses <;>
    cases hd : s.history.any (fun h => h.name == ts) <;>
      simp [hr, hp, hd, hreq, hresp, happ]

theorem openHasB_write_self (id : String) (r : ReqRecord) (s : BusState) :
    openHasB (write_request id r s) id = true := by
  simp [openHasB, write_request, lookupKey_setKey_self]

theorem openHasB_write_ne {id id' : String} (hne : id' ≠ id) (r : ReqRecord)
    (s : BusState) : openHasB (write_request id r s) id' = openHasB s id' := by
  simp [openHasB, write_request, lookupKey_setKey_ne _ _ hne]

theorem archHasB_write (id : String) (r : ReqRecord) (s : BusState) (id' : String) :
    archHasB (write_request id r s) id' = archHasB s id' := rfl

/-- `respond_to_oracle_call` either leaves the store unchanged (NotFound, or
an exception on a malformed request) or, when an open request exists,
overwrites only the response record for that id. -/
theorem respond_state_cases (id answer ts : String) (s : BusState) :
    (respond_to_oracle_call id answer ts s).2 = s ∨
    ((lookupKey id s.requests).isSome = true ∧
     ∃ q : String, (respond_to_oracle_call id answer ts s).2 =
       ⟨s.requests,
        setKey id (some ⟨id, "oracle_response", q, answer, "oracle", ts⟩) s.responses,
        s.history⟩) := by
  unfold respond_to_oracle_call
  cases hr : lookupKey id s.requests with
  | none => exact Or.inl rfl
  | some c =>
      cases c with
      | none => exact Or.inl rfl
      | some rd => exact Or.inr ⟨by simp [hr], rd.question, rfl⟩

/-! ## Per-record observability and the fine-grained reachable states

`_archive_exchange` is not one atomic transition: it is a `mkdir` followed
by two sequential `rename` calls (server.py:81, 86-87, 88-89), and
`respond_to_oracle_call` is an exists-check followed later by the response
write (server.py:201-219). A concurrent reader (the Inspector, or another
process scanning the directories) can observe the store between those
filesystem operations. The reachable-state space is therefore generated at
the granularity of single filesystem operations, each of which is atomic on
its own. -/

/-- The request file for `id` is open. -/
def reqOpenB (s : BusState) (id : String) : Bool :=
  (lookupKey id s.requests).isSome

/-- The response file for `id` is open. -/
def respOpenB (s : BusState) (id : String) : Bool :=
  (lookupKey id s.responses).isSome

/-- Some history directory holds `request_{id}.json`. -/
def reqArchB (s : BusState) (id : String) : Bool :=
  s.history.any (fun h => (lookupKey id h.hreqs).isSome)

/-- Some history directory holds `response_{id}.json`. -/
def respArchB (s : BusState) (id : String) : Bool :=
  s.history.any (fun h => (lookupKey id h.hresps).isSome)

theorem any_or_split {α : Type} (l : List α) (p q : α → Bool) :
    l.any (fun x => p x || q x) = (l.any p || l.any q) := by
  induction l with
  | nil => rfl
  | cons x rest ih =>
      simp only [List.any_cons, ih]
      cases p x <;> cases q x <;> simp

theorem archHasB_split (s : BusState) (id : String) :
    archHasB s id = (reqArchB s id || respArchB s id) :=
  any_or_split s.history _ _

theorem archHasB_false_parts {s : BusState} {id : String}
    (h : archHasB s id = false) :
    reqArchB s id = false ∧ respArchB s id = false := by
  have hs := archHasB_split s id
  rw [h] at hs
  exact Bool.or_eq_false_iff.mp hs.symm

theorem reqArchB_updateDir_req_ne (ts : String) {id id' : String} (hne : id' ≠ id)
    (c : Option ReqRecord) (s : BusState) :
    reqArchB (⟨eraseKey id s.requests, s.responses,
        updateDir ts (fun h => ⟨h.name, setKey id c h.hreqs, h.hresps⟩) s.history⟩ :
        BusState) id' = reqArchB s id' :=
  @updateDir_any_congr ts (fun h => ⟨h.name, setKey id c h.hreqs, h.hresps⟩)
    (fun h => (lookupKey id' h.hreqs).isSome)
    (fun h => by simp [lookupKey_setKey_ne _ _ hne]) s.history

theorem respArchB_updateDir_req (ts id id' : String) (c : Option ReqRecord)
    (s : BusState) :
    respArchB (⟨eraseKey id s.requests, s.responses,
        updateDir ts (fun h => ⟨h.name, setKey id c h.hreqs, h.hresps⟩) s.history⟩ :
        BusState) id' = respArchB s id' :=
  @updateDir_any_congr ts (fun h => ⟨h.name, setKey id c h.hreqs, h.hresps⟩)
    (fun h => (lookupKey id' h.hresps).isSome) (fun _ => rfl) s.history

theorem reqArchB_updateDir_resp (ts id id' : String) (c : Option RespRecord)
    (s : BusState) :
    reqArchB (⟨s.requests, eraseKey id s.responses,
        updateDir ts (fun h => ⟨h.name, h.hreqs, setKey id c h.hresps⟩) s.history⟩ :
        BusState) id' = reqArchB s id' :=
  @updateDir_any_congr ts (fun h => ⟨h.name, h.hreqs, setKey id c h.hresps⟩)
    (fun h => (lookupKey id' h.hreqs).isSome) (fun _ => rfl) s.history

theorem respArchB_updateDir_resp_ne (ts : String) {id id' : String} (hne : id' ≠ id)
    (c : Option RespRecord) (s : BusState) :
    respArchB (⟨s.requests, eraseKey id s.responses,
        updateDir ts (fun h => ⟨h.name, h.hreqs, setKey id c h.hresps⟩) s.history⟩ :
        BusState) id' = respArchB s id' :=
  @updateDir_any_congr ts (fun h => ⟨h.name, h.hreqs, setKey id c h.hresps⟩)
    (fun h => (lookupKey id' h.hresps).isSome)
    (fun h => by simp [lookupKey_setKey_ne _ _ hne]) s.history

theorem updateDir_req_any_name (ts id : String) (c : Option ReqRecord) (l : List HistDir) :
    (updateDir ts (fun h => (⟨h.name, setKey id c h.hreqs, h.hresps⟩ : HistDir)) l).any
      (fun h => h.name == ts) = l.any (fun h => h.name == ts) :=
  @updateDir_any_congr ts (fun h => (⟨h.name, setKey id c h.hreqs, h.hresps⟩ : HistDir))
    (fun h => h.name == ts) (fun _ => rfl) l

/-- One constructor per single filesystem operation the program performs on
the store:

* `issue` — `oracle_call`'s initial `_write_request` of a pending record,
  one file write. The guards embody the spec's identifier-uniqueness
  invariant: the freshly generated `str(uuid.uuid4())[:8]` has never been
  used, so it occurs in no open partition and in no history directory.
* `timeout_mark` — `oracle_call`'s timeout-path rewrite of its own still-open
  request file, one file write (the issuer wrote the file and only the
  issuer's archiver removes it, so it is still present).
* `respond_write` — the write half of `respond_to_oracle_call`
  (server.py:218-219). The exists-check passed at some earlier instant; the
  store may have changed since (the answered-after-archive race of spec
  section 4.3), so no guard ties the write to a currently open request. The
  guard `hnoresparch` is the single-responder discipline of spec section 5
  (one Responder path per exchange; concurrent same-id responders are
  undefined behavior): when the unique response write for an id executes, no
  earlier response for that id was ever written, hence none is archived.
* `archive_mkdir`, `archive_req`, `archive_resp` — the three filesystem
  operations of `_archive_exchange` (server.py:81, 86-87, 88-89): directory
  creation and the two file renames, each atomic on its own, with arbitrary
  interleavings between them. The rename guards record what the archiver
  sees at rename time: the directory exists (its `mkdir` came first and
  directories are never deleted) and the source file exists (the per-file
  exists-check, with a single archiver per id so the file cannot vanish in
  between).

The listing operations read the store but never mutate it. -/
inductive BusMicroStep : BusState → BusState → Prop where
  | issue (id : String) (r : ReqRecord) (s : BusState)
      (hfresh : openHasB s id = false) (harch : archHasB s id = false) :
      BusMicroStep s (write_request id r s)
  | timeout_mark (id : String) (r : ReqRecord) (s : BusState)
      (hopen : (lookupKey id s.requests).isSome = true) :
      BusMicroStep s (write_request id r s)
  | respond_write (id answer tsR q : String) (s : BusState)
      (hnoresparch : respArchB s id = false) :
      BusMicroStep s
        ⟨s.requests,
         setKey id (some ⟨id, "oracle_response", q, answer, "oracle", tsR⟩) s.responses,
         s.history⟩
  | archive_mkdir (ts : String) (s : BusState) :
      BusMicroStep s
        ⟨s.requests, s.responses,
         if s.history.any (fun h => h.name == ts) then s.history
         else s.history ++ [⟨ts, [], []⟩]⟩
  | archive_req (ts id : String) (c : Option ReqRecord) (s : BusState)
      (hdir : s.history.any (fun h => h.name == ts) = true)
      (hreq : lookupKey id s.requests = some c) :
      BusMicroStep s
        ⟨eraseKey id s.requests, s.responses,
         updateDir ts (fun h => ⟨h.name, setKey id c h.hreqs, h.hresps⟩) s.history⟩
  | archive_resp (ts id : String) (c : Option RespRecord) (s : BusState)
      (hdir : s.history.any (fun h => h.name == ts) = true)
      (hresp : lookupKey id s.responses = some c) :
      BusMicroStep s
        ⟨s.requests, eraseKey id s.responses,
         updateDir ts (fun h => ⟨h.name, h.hreqs, setKey id c h.hresps⟩) s.history⟩

/-- States reachable from the startup store at single-filesystem-operation
granularity: every state a concurrent reader can observe. -/
inductive MicroReachable : BusState → Prop where
  | init : MicroReachable emptyBus
  | step {s s' : BusState} : MicroReachable s → BusMicroStep s s' → MicroReachable s'

/-- A whole `respond_to_oracle_call` is covered by the micro steps: it is
either a no-op or one `respond_write`. -/
theorem microReach_respond (id answer tsR : String) (s : BusState)
    (h : MicroReachable s) (hguard : respArchB s id = false) :
    MicroReachable (respond_to_oracle_call id answer tsR s).2 := by
  rcases respond_state_cases id answer tsR s with heq | ⟨hsome, q, heq⟩
  · rw [heq]; exact h
  · rw [heq]
    exact MicroReachable.step h (BusMicroStep.respond_write id answer tsR q s hguard)

/-- A whole `_archive_exchange` is covered by the micro steps: the `mkdir`
followed by zero, one or two renames, in the code's order. -/
theorem microReach_archive (ts id : String) (s : BusState) (h : MicroReachable s) :
    MicroReachable (archive_exchange ts id s) := by
  have h1 : MicroReachable
      (⟨s.requests, s.responses,
        if s.history.any (fun g => g.name == ts) then s.history
        else s.history ++ [⟨ts, [], []⟩]⟩ : BusState) :=
    MicroReachable.step h (BusMicroStep.archive_mkdir ts s)
  have hdir1 : (if s.history.any (fun g => g.name == ts) then s.history
                else s.history ++ [⟨ts, [], []⟩]).any (fun g => g.name == ts) = true := by
    cases hd : s.history.any (fun g => g.name == ts) <;> simp [hd, List.any_append]
  cases hr : lookupKey id s.requests with
  | none =>
      cases hp : lookupKey id s.responses with
      | none =>
          have heq : archive_exchange ts id s =
              (⟨s.requests, s.responses,
                if s.history.any (fun g => g.name == ts) then s.history
                else s.history ++ [⟨ts, [], []⟩]⟩ : BusState) := by
            unfold archive_exchange; rw [hr, hp]
          rw [heq]; exact h1
      | some cp =>
          have h2 := MicroReachable.step h1
            (BusMicroStep.archive_resp ts id cp _ hdir1 hp)
          have heq : archive_exchange ts id s =
              (⟨s.requests, eraseKey id s.responses,
                updateDir ts (fun g => ⟨g.name, g.hreqs, setKey id cp g.hresps⟩)
                  (if s.history.any (fun g => g.name == ts) then s.history
                   else s.history ++ [⟨ts, [], []⟩])⟩ : BusState) := by
            unfold archive_exchange; rw [hr, hp]
          rw [heq]; exact h2
  | some cq =>
      have h2 := MicroReachable.step h1
        (BusMicroStep.archive_req ts id cq _ hdir1 hr)
      cases hp : lookupKey id s.responses with
      | none =>
          have heq : archive_exchange ts id s =
              (⟨eraseKey id s.requests, s.responses,
                updateDir ts (fun g => ⟨g.name, setKey id cq g.hreqs, g.hresps⟩)
                  (if s.history.any (fun g => g.name == ts) then s.history
                   else s.history ++ [⟨ts, [], []⟩])⟩ : BusState) := by
            unfold archive_exchange; rw [hr, hp]
          rw [heq]; exact h2
      | some cp =>
          have hdir2 : (updateDir ts (fun g => ⟨g.name, setKey id cq g.hreqs, g.hresps⟩)
              (if s.history.any (fun g => g.name == ts) then s.history
               else s.history ++ [⟨ts, [], []⟩])).any (fun g => g.name == ts) = true := by
            rw [updateDir_req_any_name]; exact hdir1
          have h3 := MicroReachable.step h2
            (BusMicroStep.archive_resp ts id cp _ hdir2 hp)
          have heq : archive_exchange ts id s =
              (⟨eraseKey id s.requests, eraseKey id s.responses,
                updateDir ts (fun g => ⟨g.name, g.hreqs, setKey id cp g.hresps⟩)
                  (updateDir ts (fun g => ⟨g.name, setKey id cq g.hreqs, g.hresps⟩)
                    (if s.history.any (fun g => g.name == ts) then s.history
                     else s.history ++ [⟨ts, [], []⟩]))⟩ : BusState) := by
            unfold archive_exchange; rw [hr, hp]
          rw [heq]; exact h3

/-- Per-record exclusion is preserved by every micro step. -/
theorem microStep_preserves_record_exclusion {s s' : BusState}
    (inv : ∀ id, (reqOpenB s id = true → reqArchB s id = false) ∧
                 (respOpenB s id = true → respArchB s id = false))
    (st : BusMicroStep s s') :
    ∀ id, (reqOpenB s' id = true → reqArchB s' id = false) ∧
          (respOpenB s' id = true → respArchB s' id = false) := by
  cases st with
  | issue id r s hfresh harch =>
      intro id'
      constructor
      · intro hop
        show reqArchB s id' = false
        by_cases hne : id' = id
        · subst hne; exact (archHasB_false_parts harch).1
        · exact (inv id').1
            (by simpa [reqOpenB, write_request, lookupKey_setKey_ne _ _ hne] using hop)
      · intro hop
        show respArchB s id' = false
        exact (inv id').2 hop
  | timeout_mark id r s hopen =>
      intro id'
      constructor
      · intro hop
        show reqArchB s id' = false
        by_cases hne : id' = id
        · subst hne; exact (inv id').1 hopen
        · exact (inv id').1
            (by simpa [reqOpenB, write_request, lookupKey_setKey_ne _ _ hne] using hop)
      · intro hop
        show respArchB s id' = false
        exact (inv id').2 hop
  | respond_write id answer tsR q s hnoresparch =>
      intro id'
      constructor
      · intro hop
        show reqArchB s id' = false
        exact (inv id').1 hop
      · intro hop
        show respArchB s id' = false
        by_cases hne : id' = id
        · subst hne; exact hnoresparch
        · exact (inv id').2
            (by simpa [respOpenB, lookupKey_setKey_ne _ _ hne] using hop)
  | archive_mkdir ts s =>
      intro id'
      have hra : reqArchB (⟨s.requests, s.responses,
            if s.history.any (fun h => h.name == ts) then s.history
            else s.history ++ [⟨ts, [], []⟩]⟩ : BusState) id' = reqArchB s id' := by
        cases hd : s.history.any (fun h => h.name == ts) <;>
          simp [reqArchB, hd, List.any_append, lookupKey]
      have hpa : respArchB (⟨s.requests, s.responses,
            if s.history.any (fun h => h.name == ts) then s.history
            else s.history ++ [⟨ts, [], []⟩]⟩ : BusState) id' = respArchB s id' := by
        cases hd : s.history.any (fun h => h.name == ts) <;>
          simp [respArchB, hd, List.any_append, lookupKey]
      constructor
      · intro hop; rw [hra]; exact (inv id').1 hop
      · intro hop; rw [hpa]; exact (inv id').2 hop
  | archive_req ts id c s hdir hreq =>
      intro id'
      constructor
      · intro hop
        by_cases hne : id' = id
        · subst hne
          simp [reqOpenB, lookupKey_eraseKey_self] at hop
        · rw [reqArchB_updateDir_req_ne ts hne c s]
          exact (inv id').1
            (by simpa [reqOpenB, lookupKey_eraseKey_ne _ hne] using hop)
      · intro hop
        rw [respArchB_updateDir_req ts id id' c s]
        exact (inv id').2 hop
  | archive_resp ts id c s hdir hresp =>
      intro id'
      constructor
      · intro hop
        rw [reqArchB_updateDir_resp ts id id' c s]
        exact (inv id').1 hop
      · intro hop
        by_cases hne : id' = id
        · subst hne
          simp [respOpenB, lookupKey_eraseKey_self] at hop
        · rw [respArchB_updateDir_resp_ne ts hne c s]
          exact (inv id').2
            (by simpa [respOpenB, lookupKey_eraseKey_ne _ hne] using hop)

theorem microReachable_record_exclusion {s : BusState} (hs : MicroReachable s) :
    ∀ id, (reqOpenB s id = true → reqArchB s id = false) ∧
          (respOpenB s id = true → respArchB s id = false) := by
  induction hs with
  | init =>
      intro id
      constructor <;> intro hop <;>
        simp [reqOpenB, respOpenB, emptyBus, lookupKey] at hop
  | step hr st ih => exact microStep_preserves_record_exclusion ih st

/-- C1 (amended): every individual record moves atomically — in every state
reachable at single-filesystem-operation granularity, no id has its request
record in the open requests partition and in the archive at the same time,
and likewise for its response record (each file is moved by one atomic
rename). The request/response PAIR of an id, however, is not archived as one
unit: between `_archive_exchange`'s two renames the id's request is already
in the archive while its response is still open, so a concurrent reader can
observe a partial archive (see the counterexample). -/
theorem C1_per_record_exclusion (s : BusState) (hs : MicroReachable s) (id : String) :
    ¬ (reqOpenB s id = true ∧ reqArchB s id = true) ∧
    ¬ (respOpenB s id = true ∧ respArchB s id = true) := by
  obtain ⟨h1, h2⟩ := microReachable_record_exclusion hs id
  constructor
  · rintro ⟨ho, ha⟩; rw [h1 ho] at ha; cases ha
  · rintro ⟨ho, ha⟩; rw [h2 ho] at ha; cases ha

/-- C1 counterexample: the mid-archive state between `_archive_exchange`'s
request rename and response rename is reachable (issue the exchange, record
the answer, make the archive directory, rename the request), and in it the
id "a" is simultaneously present in an open partition (its response) and in
the archive (its request): mutual exclusion across the archive transition
fails mid-operation, and a reader observes a partial archive. -/
theorem C1_counterexample :
    MicroReachable
      (⟨[],
        [("a", some ⟨"a", "oracle_response", "q", "yes", "oracle", "T1"⟩)],
        [⟨"H0", [("a", some ⟨"a", "oracle_call", 2, 3, "q", "", "normal", "T0", "pending"⟩)],
          []⟩]⟩ : BusState) ∧
    openHasB
      (⟨[],
        [("a", some ⟨"a", "oracle_response", "q", "yes", "oracle", "T1"⟩)],
        [⟨"H0", [("a", some ⟨"a", "oracle_call", 2, 3, "q", "", "normal", "T0", "pending"⟩)],
          []⟩]⟩ : BusState) "a" = true ∧
    archHasB
      (⟨[],
        [("a", some ⟨"a", "oracle_response", "q", "yes", "oracle", "T1"⟩)],
        [⟨"H0", [("a", some ⟨"a", "oracle_call", 2, 3, "q", "", "normal", "T0", "pending"⟩)],
          []⟩]⟩ : BusState) "a" = true :=
  ⟨MicroReachable.step
    (MicroReachable.step
      (MicroReachable.step
        (MicroReachable.step MicroReachable.init
          (BusMicroStep.issue "a"
            ⟨"a", "oracle_call", 2, 3, "q", "", "normal", "T0", "pending"⟩ emptyBus
            (by decide) (by decide)))
        (BusMicroStep.respond_write "a" "yes" "T1" "q" _ (by decide)))
      (BusMicroStep.archive_mkdir "H0" _))
    (BusMicroStep.archive_req "H0" "a"
      (some ⟨"a", "oracle_call", 2, 3, "q", "", "normal", "T0", "pending"⟩) _
      (by decide) (by decide)),
   by decide, by decide⟩

theorem C1_per_record_exclusion_witness :
    ¬ (reqOpenB
        (⟨[],
          [("a", some ⟨"a", "oracle_response", "q", "yes", "oracle", "T1"⟩)],
          [⟨"H0", [("a", some ⟨"a", "oracle_call", 2, 3, "q", "", "normal", "T0", "pending"⟩)],
            []⟩]⟩ : BusState) "a" = true ∧
       reqArchB
        (⟨[],
          [("a", some ⟨"a", "oracle_response", "q", "yes", "oracle", "T1"⟩)],
          [⟨"H0", [("a", some ⟨"a", "oracle_call", 2, 3, "q", "", "normal", "T0", "pending"⟩)],
            []⟩]⟩ : BusState) "a" = true) ∧
    ¬ (respOpenB
        (⟨[],
          [("a", some ⟨"a", "oracle_response", "q", "yes", "oracle", "T1"⟩)],
          [⟨"H0", [("a", some ⟨"a", "oracle_call", 2, 3, "q", "", "normal", "T0", "pending"⟩)],
            []⟩]⟩ : BusState) "a" = true ∧
       respArchB
        (⟨[],
          [("a", some ⟨"a", "oracle_response", "q", "yes", "oracle", "T1"⟩)],
          [⟨"H0", [("a", some ⟨"a", "oracle_call", 2, 3, "q", "", "normal", "T0", "pending"⟩)],
            []⟩]⟩ : BusState) "a" = true) :=
  C1_per_record_exclusion _
    (MicroReachable.step
      (MicroReachable.step
        (MicroReachable.step
          (MicroReachable.step MicroReachable.init
            (BusMicroStep.issue "a"
              ⟨"a", "oracle_call", 2, 3, "q", "", "normal", "T0", "pending"⟩ emptyBus
              (by decide) (by decide)))
          (BusMicroStep.respond_write "a" "yes" "T1" "q" _ (by decide)))
        (BusMicroStep.archive_mkdir "H0" _))
      (BusMicroStep.archive_req "H0" "a"
        (some ⟨"a", "oracle_call", 2, 3, "q", "", "normal", "T0", "pending"⟩) _
        (by decide) (by decide)))
    "a"

/-! ## C2: duplicate / vain archive calls -/

theorem lookupKey_archive_requests_self (ts id : String) (s : BusState) :
    lookupKey id (archive_exchange ts id s).requests = none := by
  unfold archive_exchange
  cases hr : lookupKey id s.requests <;> cases hp : lookupKey id s.responses <;>
    simp [hr, hp, lookupKey_eraseKey_self]

theorem lookupKey_archive_responses_self (ts id : String) (s : BusState) :
    lookupKey id (archive_exchange ts id s).responses = none := by
  unfold archive_exchange
  cases hr : lookupKey id s.requests <;> cases hp : lookupKey id s.responses <;>
    simp [hr, hp, lookupKey_eraseKey_self]

theorem archive_dirname_present (ts id : String) (s : BusState) :
    (archive_exchange ts id s).history.any (fun h => h.name == ts) = true := by
  have hname1 : ∀ (c : Option ReqRecord) (l : List HistDir),
      (updateDir ts (fun h => (⟨h.name, setKey id c h.hreqs, h.hresps⟩ : HistDir)) l).any
        (fun h => h.name == ts) = l.any (fun h => h.name == ts) :=
    fun c l => @updateDir_any_congr ts
      (fun h => (⟨h.name, setKey id c h.hreqs, h.hresps⟩ : HistDir))
      (fun h => h.name == ts) (fun h => rfl) l
  have hname2 : ∀ (c : Option RespRecord) (l : List HistDir),
      (updateDir ts (fun h => (⟨h.name, h.hreqs, setKey id c h.hresps⟩ : HistDir)) l).any
        (fun h => h.name == ts) = l.any (fun h => h.name == ts) :=
    fun c l => @updateDir_any_congr ts
      (fun h => (⟨h.name, h.hreqs, setKey id c h.hresps⟩ : HistDir))
      (fun h => h.name == ts) (fun h => rfl) l
  unfold archive_exchange
  cases hr : lookupKey id s.requests <;> cases hp : lookupKey id s.responses <;>
    cases hd : s.history.any (fun h => h.name == ts) <;>
      simp [hr, hp, hd, hname1, hname2, List.any_append]

/-- When the id has no open record and the timestamp directory already
exists, `_archive_exchange` changes nothing. -/
theorem archive_exchange_no_op (ts id : String) (s : BusState)
    (hr : lookupKey id s.requests = none) (hp : lookupKey id s.responses = none)
    (hd : s.history.any (fun h => h.name == ts) = true) :
    archive_exchange ts id s = s := by
  unfold archive_exchange
  simp [hr, hp, hd]

/-- C2 (amended): `archive(id)` repeated under the same second-granularity
timestamp is idempotent — the duplicate call finds nothing left to move and
the timestamp directory already present, and changes nothing. -/
theorem C2_archive_idempotent_same_stamp (ts id : String) (s : BusState) :
    archive_exchange ts id (archive_exchange ts id s) = archive_exchange ts id s :=
  archive_exchange_no_op ts id _
    (lookupKey_archive_requests_self ts id s)
    (lookupKey_archive_responses_self ts id s)
    (archive_dirname_present ts id s)

/-- C2 counterexample: archiving an id with nothing to archive is not a
no-op — it creates an empty timestamp directory (the `mkdir` precedes the
existence checks) — and a duplicate archive call whose timestamp falls in a
later second changes the historical-exchange count that `bus_status`
reports (from 1 to 2 here). -/
theorem C2_counterexample :
    archive_exchange "20260101_000000" "x" emptyBus ≠ emptyBus ∧
    bus_status "bus" (archive_exchange "20260101_000001" "x"
        (archive_exchange "20260101_000000" "x" emptyBus)) ≠
      bus_status "bus" (archive_exchange "20260101_000000" "x" emptyBus) := by
  constructor <;> decide

/-! ## C6: responding to an unknown id -/

/-- C6: when no open request file exists for `request_id`,
`respond_to_oracle_call` returns the NotFound result string and the store,
every partition included, is completely unchanged. -/
theorem C6_respond_not_found (id answer ts : String) (s : BusState)
    (h : lookupKey id s.requests = none) :
    respond_to_oracle_call id answer ts s =
      (.ok ("No pending request found with ID: " ++ id), s) := by
  unfold respond_to_oracle_call
  rw [h]

theorem C6_respond_not_found_witness :
    lookupKey "z" emptyBus.requests = none ∧
    respond_to_oracle_call "z" "an answer" "T" emptyBus =
      (.ok ("No pending request found with ID: " ++ "z"), emptyBus) :=
  ⟨rfl, C6_respond_not_found "z" "an answer" "T" emptyBus rfl⟩

/-! ## C10: a second response silently overwrites the first -/

theorem respond_found (id answer ts : String) (s : BusState) (rd : ReqRecord)
    (h : lookupKey id s.requests = some (some rd)) :
    respond_to_oracle_call id answer ts s =
      (.ok ("Response recorded for request " ++ id ++
            ". The caller will receive it shortly."),
       ⟨s.requests,
        setKey id (some ⟨id, "oracle_response", rd.question, answer, "oracle", ts⟩)
          s.responses,
        s.history⟩) := by
  unfold respond_to_oracle_call
  rw [h]

/-- C10: when an open request exists for `request_id`, a second
`respond_to_oracle_call` with a different answer unconditionally overwrites
the existing response record: both calls return the success string (no
error to either caller) and afterwards the store holds only the second
answer's record for that id, every other partition unchanged. -/
theorem C10_second_response_overwrites (id a1 a2 ts1 ts2 : String) (s : BusState)
    (rd : ReqRecord) (h : lookupKey id s.requests = some (some rd)) :
    (respond_to_oracle_call id a1 ts1 s).1 =
      .ok ("Response recorded for request " ++ id ++
           ". The caller will receive it shortly.") ∧
    (respond_to_oracle_call id a2 ts2 (respond_to_oracle_call id a1 ts1 s).2).1 =
      .ok ("Response recorded for request " ++ id ++
           ". The caller will receive it shortly.") ∧
    (respond_to_oracle_call id a2 ts2 (respond_to_oracle_call id a1 ts1 s).2).2 =
      ⟨s.requests,
       setKey id (some ⟨id, "oracle_response", rd.question, a2, "oracle", ts2⟩)
         s.responses,
       s.history⟩ := by
  have e1 := respond_found id a1 ts1 s rd h
  have e2 := respond_found id a2 ts2
    (⟨s.requests,
      setKey id (some ⟨id, "oracle_response", rd.question, a1, "oracle", ts1⟩)
        s.responses,
      s.history⟩ : BusState) rd h
  rw [e1, e2]
  refine ⟨rfl, rfl, ?_⟩
  simp [setKey_setKey_self]

theorem C10_second_response_overwrites_witness :
    lookupKey "a" (⟨[("a", some ⟨"a", "oracle_call", 2, 3, "q", "", "normal", "T0", "pending"⟩)],
        [], []⟩ : BusState).requests =
      some (some ⟨"a", "oracle_call", 2, 3, "q", "", "normal", "T0", "pending"⟩) ∧
    ((respond_to_oracle_call "a" "first" "T1"
        (⟨[("a", some ⟨"a", "oracle_call", 2, 3, "q", "", "normal", "T0", "pending"⟩)],
          [], []⟩ : BusState)).1 =
      .ok ("Response recorded for request " ++ "a" ++
           ". The caller will receive it shortly.") ∧
    (respond_to_oracle_call "a" "second" "T2"
        (respond_to_oracle_call "a" "first" "T1"
          (⟨[("a", some ⟨"a", "oracle_call", 2, 3, "q", "", "normal", "T0", "pending"⟩)],
            [], []⟩ : BusState)).2).1 =
      .ok ("Response recorded for request " ++ "a" ++
           ". The caller will receive it shortly.") ∧
    (respond_to_oracle_call "a" "second" "T2"
        (respond_to_oracle_call "a" "first" "T1"
          (⟨[("a", some ⟨"a", "oracle_call", 2, 3, "q", "", "normal", "T0", "pending"⟩)],
            [], []⟩ : BusState)).2).2 =
      ⟨[("a", some ⟨"a", "oracle_call", 2, 3, "q", "", "normal", "T0", "pending"⟩)],
       setKey "a" (some ⟨"a", "oracle_response", "q", "second", "oracle", "T2"⟩) [],
       []⟩) :=
  ⟨rfl, C10_second_response_overwrites "a" "first" "second" "T1" "T2" _
    ⟨"a", "oracle_call", 2, 3, "q", "", "normal", "T0", "pending"⟩ rfl⟩

/-! ## What `archive_exchange` leaves in the archive -/

theorem filterMap_req_updateDir_set (ts id : String) (c : Option ReqRecord)
    (l : List HistDir) (hany : l.any (fun h => h.name == ts) = true)
    (hnone : ∀ h ∈ l, lookupKey id h.hreqs = none) :
    (updateDir ts (fun h => (⟨h.name, setKey id c h.hreqs, h.hresps⟩ : HistDir)) l).filterMap
      (fun h => lookupKey id h.hreqs) = [c] := by
  induction l with
  | nil => cases hany
  | cons h rest ih =>
      cases hn : h.name == ts
      · have hh : lookupKey id h.hreqs = none := hnone h (by simp)
        have hrest : rest.any (fun h => h.name == ts) = true := by
          simpa [List.any_cons, hn] using hany
        simp [updateDir, hn, List.filterMap_cons, hh,
              ih hrest (fun g hg => hnone g (by simp [hg]))]
      · have hrestnone : ∀ g ∈ rest, lookupKey id g.hreqs = none :=
          fun g hg => hnone g (by simp [hg])
        simp [updateDir, hn, List.filterMap_cons, lookupKey_setKey_self,
              List.filterMap_eq_nil_iff.mpr hrestnone]

theorem filterMap_resp_updateDir_set (ts id : String) (c : Option RespRecord)
    (l : List HistDir) (hany : l.any (fun h => h.name == ts) = true)
    (hnone : ∀ h ∈ l, lookupKey id h.hresps = none) :
    (updateDir ts (fun h => (⟨h.name, h.hreqs, setKey id c h.hresps⟩ : HistDir)) l).filterMap
      (fun h => lookupKey id h.hresps) = [c] := by
  induction l with
  | nil => cases hany
  | cons h rest ih =>
      cases hn : h.name == ts
      · have hh : lookupKey id h.hresps = none := hnone h (by simp)
        have hrest : rest.any (fun h => h.name == ts) = true := by
          simpa [List.any_cons, hn] using hany
        simp [updateDir, hn, List.filterMap_cons, hh,
              ih hrest (fun g hg => hnone g (by simp [hg]))]
      · have hrestnone : ∀ g ∈ rest, lookupKey id g.hresps = none :=
          fun g hg => hnone g (by simp [hg])
        simp [updateDir, hn, List.filterMap_cons, lookupKey_setKey_self,
              List.filterMap_eq_nil_iff.mpr hrestnone]

theorem hist_append_any_name (ts : String) (l : List HistDir) :
    (l ++ [(⟨ts, [], []⟩ : HistDir)]).any (fun h => h.name == ts) = true := by
  simp [List.any_append]

theorem hist_append_req_none (id : String) (ts : String) (l : List HistDir)
    (hnone : ∀ h ∈ l, lookupKey id h.hreqs = none) :
    ∀ h ∈ l ++ [(⟨ts, [], []⟩ : HistDir)], lookupKey id h.hreqs = none := by
  intro h hm
  rcases List.mem_append.mp hm with hm | hm
  · exact hnone h hm
  · simp at hm; subst hm; rfl

theorem hist_append_resp_none (id : String) (ts : String) (l : List HistDir)
    (hnone : ∀ h ∈ l, lookupKey id h.hresps = none) :
    ∀ h ∈ l ++ [(⟨ts, [], []⟩ : HistDir)], lookupKey id h.hresps = none := by
  intro h hm
  rcases List.mem_append.mp hm with hm | hm
  · exact hnone h hm
  · simp at hm; subst hm; rfl

/-- Archiving an id whose open request exists leaves exactly one archived
request file for it, holding the moved content, provided no history
directory previously contained that id. -/
theorem archReqRecords_archive (aStamp id : String) (s : BusState) (c : Option ReqRecord)
    (hr : lookupKey id s.requests = some c)
    (hnone : ∀ h ∈ s.history, lookupKey id h.hreqs = none) :
    archReqRecords (archive_exchange aStamp id s) id = [c] := by
  have hcongr : ∀ (c' : Option RespRecord) (l : List HistDir),
      (updateDir aStamp (fun h => (⟨h.name, h.hreqs, setKey id c' h.hresps⟩ : HistDir)) l).filterMap
        (fun h => lookupKey id h.hreqs) = l.filterMap (fun h => lookupKey id h.hreqs) :=
    fun c' l => @updateDir_filterMap_congr _ aStamp
      (fun h => (⟨h.name, h.hreqs, setKey id c' h.hresps⟩ : HistDir))
      (fun h => lookupKey id h.hreqs) (fun h => rfl) l
  unfold archReqRecords archive_exchange
  cases hp : lookupKey id s.responses <;>
    cases hd : s.history.any (fun h => h.name == aStamp)
  · simp only [hr, hp, hd]
    simp only [Bool.false_eq_true, if_false]
    exact filterMap_req_updateDir_set aStamp id c _ (hist_append_any_name aStamp s.history)
      (hist_append_req_none id aStamp s.history hnone)
  · simp only [hr, hp, hd, if_true]
    exact filterMap_req_updateDir_set aStamp id c _ hd hnone
  · simp only [hr, hp, hd]
    simp only [Bool.false_eq_true, if_false]
    rw [hcongr]
    exact filterMap_req_updateDir_set aStamp id c _ (hist_append_any_name aStamp s.history)
      (hist_append_req_none id aStamp s.history hnone)
  · simp only [hr, hp, hd, if_true]
    rw [hcongr]
    exact filterMap_req_updateDir_set aStamp id c _ hd hnone

theorem updateDir_forall {n : String} {f : HistDir → HistDir} {P : HistDir → Prop}
    (hf : ∀ h, P h → P (f h)) (l : List HistDir) (hl : ∀ h ∈ l, P h) :
    ∀ h ∈ updateDir n f l, P h := by
  induction l with
  | nil => simp [updateDir]
  | cons g rest ih =>
      cases hn : g.name == n <;> intro h hm
      · simp only [updateDir, hn, Bool.false_eq_true, if_false] at hm
        rcases List.mem_cons.mp hm with hm | hm
        · exact hm ▸ hl g (by simp)
        · exact ih (fun x hx => hl x (by simp [hx])) h hm
      · simp only [updateDir, hn, if_true] at hm
        rcases List.mem_cons.mp hm with hm | hm
        · exact hm ▸ hf g (hl g (by simp))
        · exact hl h (by simp [hm])

/-- Archiving an id whose open response exists leaves exactly one archived
response file for it. -/
theorem archRespRecords_archive_some (aStamp id : String) (s : BusState)
    (c : Option RespRecord) (hp : lookupKey id s.responses = some c)
    (hnone : ∀ h ∈ s.history, lookupKey id h.hresps = none) :
    archRespRecords (archive_exchange aStamp id s) id = [c] := by
  unfold archRespRecords archive_exchange
  cases hr : lookupKey id s.requests <;>
    cases hd : s.history.any (fun h => h.name == aStamp)
  · simp only [hr, hp, hd]
    simp only [Bool.false_eq_true, if_false]
    exact filterMap_resp_updateDir_set aStamp id c _ (hist_append_any_name aStamp s.history)
      (hist_append_resp_none id aStamp s.history hnone)
  · simp only [hr, hp, hd, if_true]
    exact filterMap_resp_updateDir_set aStamp id c _ hd hnone
  · rename_i cq
    simp only [hr, hp, hd]
    simp only [Bool.false_eq_true, if_false]
    refine filterMap_resp_updateDir_set aStamp id c _ ?_ ?_
    · rw [updateDir_req_any_name]
      exact hist_append_any_name aStamp s.history
    · exact @updateDir_forall aStamp
        (fun h => (⟨h.name, setKey id cq h.hreqs, h.hresps⟩ : HistDir))
        (fun g => lookupKey id g.hresps = none) (fun h hh => hh) _
        (hist_append_resp_none id aStamp s.history hnone)
  · rename_i cq
    simp only [hr, hp, hd, if_true]
    refine filterMap_resp_updateDir_set aStamp id c _ ?_ ?_
    · rw [updateDir_req_any_name]; exact hd
    · exact @updateDir_forall aStamp
        (fun h => (⟨h.name, setKey id cq h.hreqs, h.hresps⟩ : HistDir))
        (fun g => lookupKey id g.hresps = none) (fun h hh => hh) _ hnone

/-- Archiving an id with no open response leaves no archived response file
for it (when none existed before). -/
theorem archRespRecords_archive_none (aStamp id : String) (s : BusState)
    (hp : lookupKey id s.responses = none)
    (hnone : ∀ h ∈ s.history, lookupKey id h.hresps = none) :
    archRespRecords (archive_exchange aStamp id s) id = [] := by
  have hcongr : ∀ (c : Option ReqRecord) (l : List HistDir),
      (updateDir aStamp (fun h => (⟨h.name, setKey id c h.hreqs, h.hresps⟩ : HistDir)) l).filterMap
        (fun h => lookupKey id h.hresps) = l.filterMap (fun h => lookupKey id h.hresps) :=
    fun c l => @updateDir_filterMap_congr _ aStamp
      (fun h => (⟨h.name, setKey id c h.hreqs, h.hresps⟩ : HistDir))
      (fun h => lookupKey id h.hresps) (fun h => rfl) l
  unfold archRespRecords archive_exchange
  cases hr : lookupKey id s.requests <;>
    cases hd : s.history.any (fun h => h.name == aStamp)
  · simp only [hr, hp, hd]
    simp only [Bool.false_eq_true, if_false]
    exact List.filterMap_eq_nil_iff.mpr (hist_append_resp_none id aStamp s.history hnone)
  · simp only [hr, hp, hd, if_true]
    exact List.filterMap_eq_nil_iff.mpr hnone
  · simp only [hr, hp, hd]
    simp only [Bool.false_eq_true, if_false]
    rw [hcongr]
    exact List.filterMap_eq_nil_iff.mpr (hist_append_resp_none id aStamp s.history hnone)
  · simp only [hr, hp, hd, if_true]
    rw [hcongr]
    exact List.filterMap_eq_nil_iff.mpr hnone

/-! ## Runs of the poll loop -/

/-- With no interference and no stored response, every check misses and the
loop ends in the timeout epilogue, having polled and slept once per
in-budget iteration. -/
theorem pollLoop_no_response (id aStamp : String) (rd : ReqRecord) (t : Int) :
    ∀ (fuel k : Nat) (s : BusState), lookupKey id s.responses = none →
    pollLoop id aStamp rd t idSched k fuel s =
      ⟨.ok (timeoutMsg t id),
       archive_exchange aStamp id
         (write_request id { rd with status := "timeout" } s),
       fuel, fuel⟩ := by
  intro fuel
  induction fuel with
  | zero =>
      intro k s hresp
      rw [pollLoop]
      cases hk : k == 0 <;> simp [hk, idSched]
  | succ n ih =>
      intro k s hresp
      show pollLoop id aStamp rd t idSched k (n + 1) s = _
      rw [pollLoop]
      simp only [idSched]
      have hrr : read_response id s = none := hresp
      rw [hrr]
      rw [ih (k + 1) s hresp]

/-- With the responder writing its answer just before poll `j`, the loop
misses `j` times, then reads the freshly written response, archives, and
returns the success string. -/
theorem pollLoop_respond_at (id aStamp answer tsR : String) (rd rdReq : ReqRecord)
    (t : Int) (j : Nat) (s : BusState)
    (hreq : lookupKey id s.requests = some (some rdReq))
    (hresp : lookupKey id s.responses = none) :
    ∀ (d fuel k : Nat), j = k + d → d < fuel →
    pollLoop id aStamp rd t (respondSched j id answer tsR) k fuel s =
      ⟨.ok (successMsg "oracle" answer),
       archive_exchange aStamp id
         ⟨s.requests,
          setKey id (some ⟨id, "oracle_response", rdReq.question, answer, "oracle", tsR⟩)
            s.responses,
          s.history⟩,
       d + 1, d⟩ := by
  intro d
  induction d with
  | zero =>
      intro fuel k hk hfuel
      obtain ⟨n, rfl⟩ : ∃ n, fuel = n + 1 :=
        ⟨fuel - 1, by omega⟩
      rw [pollLoop]
      have hs' : respondSched j id answer tsR k s =
          ⟨s.requests,
           setKey id (some ⟨id, "oracle_response", rdReq.question, answer, "oracle", tsR⟩)
             s.responses,
           s.history⟩ := by
        unfold respondSched
        have hkj : (k == j) = true := by
          have hx : k = j := by omega
          simp [hx]
        rw [hkj]
        simp only [if_true]
        exact congrArg Prod.snd (respond_found id answer tsR s rdReq hreq)
      rw [hs']
      have hrd : read_response id
          (⟨s.requests,
            setKey id (some ⟨id, "oracle_response", rdReq.question, answer, "oracle", tsR⟩)
              s.responses,
            s.history⟩ : BusState) =
          some (some ⟨id, "oracle_response", rdReq.question, answer, "oracle", tsR⟩) := by
        unfold read_response
        exact lookupKey_setKey_self id _ s.responses
      rw [hrd]
  | succ d ih =>
      intro fuel k hk hfuel
      obtain ⟨n, rfl⟩ : ∃ n, fuel = n + 1 := ⟨fuel - 1, by omega⟩
      rw [pollLoop]
      have hs' : respondSched j id answer tsR k s = s := by
        unfold respondSched
        have : (k == j) = false := beq_eq_false_iff_ne.mpr (by omega)
        rw [this]
        simp
      rw [hs']
      have : read_response id s = none := hresp
      rw [this]
      rw [ih n (k + 1) (by omega) (by omega)]

/-- C4: with no response written before the timeout elapses (no responder
interference at any poll), `oracle_call` rewrites the persisted request with
status `"timeout"`, archives it, and returns the timeout result string
carrying the original id; afterwards the exchange appears exactly once in
history, with status timeout, and is gone from the open partitions. The id
is fresh: no open response and no archived file for it pre-exists. -/
theorem C4_timeout_path (question context urgency : String) (t : Int)
    (id ts aStamp : String) (s0 : BusState)
    (hresp : lookupKey id s0.responses = none)
    (hnr : ∀ h ∈ s0.history, lookupKey id h.hreqs = none)
    (hns : ∀ h ∈ s0.history, lookupKey id h.hresps = none) :
    (oracle_call question context urgency t id ts aStamp idSched s0).result =
      .ok ("Oracle call timed out after " ++ toString t ++
           "s. The oracle did not respond. Request ID: " ++ id) ∧
    archReqRecords (oracle_call question context urgency t id ts aStamp idSched s0).state id =
      [some ⟨id, "oracle_call", 2, 3, question, context, urgency, ts, "timeout"⟩] ∧
    archRespRecords (oracle_call question context urgency t id ts aStamp idSched s0).state id =
      [] ∧
    openHasB (oracle_call question context urgency t id ts aStamp idSched s0).state id =
      false := by
  have hrun : oracle_call question context urgency t id ts aStamp idSched s0 =
      ⟨.ok (timeoutMsg t id),
       archive_exchange aStamp id
         (write_request id ⟨id, "oracle_call", 2, 3, question, context, urgency, ts, "timeout"⟩
           (write_request id ⟨id, "oracle_call", 2, 3, question, context, urgency, ts, "pending"⟩
             s0)),
       numPolls t, numPolls t⟩ := by
    unfold oracle_call
    exact pollLoop_no_response id aStamp
      ⟨id, "oracle_call", 2, 3, question, context, urgency, ts, "pending"⟩ t
      (numPolls t) 0 _ hresp
  rw [hrun]
  refine ⟨rfl, ?_, ?_, ?_⟩
  · exact archReqRecords_archive aStamp id _
      (some ⟨id, "oracle_call", 2, 3, question, context, urgency, ts, "timeout"⟩)
      (lookupKey_setKey_self id _ _) hnr
  · exact archRespRecords_archive_none aStamp id _ hresp hns
  · exact openHasB_archive_self aStamp id _

theorem C4_timeout_path_witness :
    (oracle_call "q" "" "normal" 5 "a" "T0" "H0" idSched emptyBus).result =
      .ok ("Oracle call timed out after " ++ toString (5 : Int) ++
           "s. The oracle did not respond. Request ID: " ++ "a") ∧
    archReqRecords (oracle_call "q" "" "normal" 5 "a" "T0" "H0" idSched emptyBus).state "a" =
      [some ⟨"a", "oracle_call", 2, 3, "q", "", "normal", "T0", "timeout"⟩] ∧
    archRespRecords (oracle_call "q" "" "normal" 5 "a" "T0" "H0" idSched emptyBus).state "a" =
      [] ∧
    openHasB (oracle_call "q" "" "normal" 5 "a" "T0" "H0" idSched emptyBus).state "a" =
      false :=
  C4_timeout_path "q" "" "normal" 5 "a" "T0" "H0" emptyBus rfl
    (fun _ hm => nomatch hm) (fun _ hm => nomatch hm)

/-- Helper for C3: if the responder records an answer just before in-budget
poll `j`, `oracle_call` returns the success result carrying the recorded
answer and responder identity, and afterwards the exchange — its request
record and its response record — appears exactly once in history and no
longer in the open partitions. The id is fresh in `s0`. -/
theorem oracle_call_observed_response (question context urgency answer : String) (t : Int)
    (id ts tsR aStamp : String) (j : Nat) (s0 : BusState)
    (hj : j < numPolls t)
    (hresp : lookupKey id s0.responses = none)
    (hnr : ∀ h ∈ s0.history, lookupKey id h.hreqs = none)
    (hns : ∀ h ∈ s0.history, lookupKey id h.hresps = none) :
    (oracle_call question context urgency t id ts aStamp
        (respondSched j id answer tsR) s0).result =
      .ok ("Oracle response (oracle): " ++ answer) ∧
    archReqRecords (oracle_call question context urgency t id ts aStamp
        (respondSched j id answer tsR) s0).state id =
      [some ⟨id, "oracle_call", 2, 3, question, context, urgency, ts, "pending"⟩] ∧
    archRespRecords (oracle_call question context urgency t id ts aStamp
        (respondSched j id answer tsR) s0).state id =
      [some ⟨id, "oracle_response", question, answer, "oracle", tsR⟩] ∧
    openHasB (oracle_call question context urgency t id ts aStamp
        (respondSched j id answer tsR) s0).state id = false := by
  have hrun : oracle_call question context urgency t id ts aStamp
      (respondSched j id answer tsR) s0 =
      ⟨.ok (successMsg "oracle" answer),
       archive_exchange aStamp id
         ⟨(write_request id ⟨id, "oracle_call", 2, 3, question, context, urgency, ts, "pending"⟩
             s0).requests,
          setKey id (some ⟨id, "oracle_response", question, answer, "oracle", tsR⟩)
            (write_request id
              ⟨id, "oracle_call", 2, 3, question, context, urgency, ts, "pending"⟩
              s0).responses,
          (write_request id ⟨id, "oracle_call", 2, 3, question, context, urgency, ts, "pending"⟩
             s0).history⟩,
       j + 1, j⟩ := by
    unfold oracle_call
    exact pollLoop_respond_at id aStamp answer tsR
      ⟨id, "oracle_call", 2, 3, question, context, urgency, ts, "pending"⟩
      ⟨id, "oracle_call", 2, 3, question, context, urgency, ts, "pending"⟩
      t j (write_request id
            ⟨id, "oracle_call", 2, 3, question, context, urgency, ts, "pending"⟩ s0)
      (lookupKey_setKey_self id _ _) hresp j (numPolls t) 0 (by omega) hj
  rw [hrun]
  refine ⟨rfl, ?_, ?_, ?_⟩
  · exact archReqRecords_archive aStamp id _
      (some ⟨id, "oracle_call", 2, 3, question, context, urgency, ts, "pending"⟩)
      (lookupKey_setKey_self id _ _) hnr
  · exact archRespRecords_archive_some aStamp id _
      (some ⟨id, "oracle_response", question, answer, "oracle", tsR⟩)
      (lookupKey_setKey_self id _ _) hns
  · exact openHasB_archive_self aStamp id _

/-- The poll loop when the responder's write lands only in the final window,
just before the timeout epilogue (`j = numPolls t > 0`): every in-budget
poll misses, the response is recorded during the last poll-interval wait,
the epilogue then rewrites the request with status timeout and archives the
pair, returning the timeout string. -/
theorem pollLoop_late_response (id aStamp answer tsR : String) (rd : ReqRecord)
    (t : Int) (j : Nat) :
    ∀ (fuel k : Nat) (s : BusState), lookupKey id s.responses = none →
    k + fuel = j → 0 < j →
    pollLoop id aStamp rd t (respondSched j id answer tsR) k fuel s =
      ⟨.ok (timeoutMsg t id),
       archive_exchange aStamp id
         (write_request id { rd with status := "timeout" }
           (respond_to_oracle_call id answer tsR s).2),
       fuel, fuel⟩ := by
  intro fuel
  induction fuel with
  | zero =>
      intro k s hresp hk hj
      rw [pollLoop]
      have hk0 : (k == 0) = false := beq_eq_false_iff_ne.mpr (by omega)
      simp only [hk0, Bool.false_eq_true, if_false]
      have hsj : respondSched j id answer tsR k s =
          (respond_to_oracle_call id answer tsR s).2 := by
        unfold respondSched
        have hkj : (k == j) = true := by
          have hx : k = j := by omega
          simp [hx]
        rw [hkj]
        simp
      rw [hsj]
  | succ n ih =>
      intro k s hresp hk hj
      rw [pollLoop]
      have hs' : respondSched j id answer tsR k s = s := by
        unfold respondSched
        have hne : (k == j) = false := beq_eq_false_iff_ne.mpr (by omega)
        rw [hne]
        simp
      rw [hs']
      have hrr : read_response id s = none := hresp
      rw [hrr]
      rw [ih (k + 1) s hresp (by omega) hj]

/-- C3 (amended): a response recorded at any in-budget poll instant — that
is, observed by one of the polls of the wait loop — makes `oracle_call`
return the success result carrying the recorded answer and responder
identity, with the exchange archived exactly once and gone from the open
partitions. A response recorded before the deadline but after the last poll
(in the final poll-interval wait) is never read: the call returns the
TIMEOUT result instead, and the timeout path archives the freshly recorded
response together with the timeout-marked request — still exactly once in
history, but not a success return. The id is fresh in `s0`. -/
theorem C3_response_before_timeout (question context urgency answer : String)
    (t : Int) (id ts tsR aStamp : String) (s0 : BusState)
    (hresp : lookupKey id s0.responses = none)
    (hnr : ∀ h ∈ s0.history, lookupKey id h.hreqs = none)
    (hns : ∀ h ∈ s0.history, lookupKey id h.hresps = none) :
    (∀ j, j < numPolls t →
      (oracle_call question context urgency t id ts aStamp
          (respondSched j id answer tsR) s0).result =
        .ok ("Oracle response (oracle): " ++ answer) ∧
      archReqRecords (oracle_call question context urgency t id ts aStamp
          (respondSched j id answer tsR) s0).state id =
        [some ⟨id, "oracle_call", 2, 3, question, context, urgency, ts, "pending"⟩] ∧
      archRespRecords (oracle_call question context urgency t id ts aStamp
          (respondSched j id answer tsR) s0).state id =
        [some ⟨id, "oracle_response", question, answer, "oracle", tsR⟩] ∧
      openHasB (oracle_call question context urgency t id ts aStamp
          (respondSched j id answer tsR) s0).state id = false) ∧
    (0 < numPolls t →
      (oracle_call question context urgency t id ts aStamp
          (respondSched (numPolls t) id answer tsR) s0).result =
        .ok ("Oracle call timed out after " ++ toString t ++
             "s. The oracle did not respond. Request ID: " ++ id) ∧
      archReqRecords (oracle_call question context urgency t id ts aStamp
          (respondSched (numPolls t) id answer tsR) s0).state id =
        [some ⟨id, "oracle_call", 2, 3, question, context, urgency, ts, "timeout"⟩] ∧
      archRespRecords (oracle_call question context urgency t id ts aStamp
          (respondSched (numPolls t) id answer tsR) s0).state id =
        [some ⟨id, "oracle_response", question, answer, "oracle", tsR⟩] ∧
      openHasB (oracle_call question context urgency t id ts aStamp
          (respondSched (numPolls t) id answer tsR) s0).state id = false) := by
  constructor
  · intro j hj
    exact oracle_call_observed_response question context urgency answer t
      id ts tsR aStamp j s0 hj hresp hnr hns
  · intro hpos
    have hrun : oracle_call question context urgency t id ts aStamp
        (respondSched (numPolls t) id answer tsR) s0 =
        ⟨.ok (timeoutMsg t id),
         archive_exchange aStamp id
           (write_request id
             ⟨id, "oracle_call", 2, 3, question, context, urgency, ts, "timeout"⟩
             ⟨(write_request id
                 ⟨id, "oracle_call", 2, 3, question, context, urgency, ts, "pending"⟩
                 s0).requests,
              setKey id (some ⟨id, "oracle_response", question, answer, "oracle", tsR⟩)
                (write_request id
                  ⟨id, "oracle_call", 2, 3, question, context, urgency, ts, "pending"⟩
                  s0).responses,
              (write_request id
                 ⟨id, "oracle_call", 2, 3, question, context, urgency, ts, "pending"⟩
                 s0).history⟩),
         numPolls t, numPolls t⟩ := by
      unfold oracle_call
      rw [pollLoop_late_response id aStamp answer tsR
        ⟨id, "oracle_call", 2, 3, question, context, urgency, ts, "pending"⟩
        t (numPolls t) (numPolls t) 0
        (write_request id
          ⟨id, "oracle_call", 2, 3, question, context, urgency, ts, "pending"⟩ s0)
        hresp (by omega) hpos]
      rw [congrArg Prod.snd (respond_found id answer tsR
        (write_request id
          ⟨id, "oracle_call", 2, 3, question, context, urgency, ts, "pending"⟩ s0)
        ⟨id, "oracle_call", 2, 3, question, context, urgency, ts, "pending"⟩
        (lookupKey_setKey_self id _ _))]
    rw [hrun]
    refine ⟨rfl, ?_, ?_, ?_⟩
    · exact archReqRecords_archive aStamp id _
        (some ⟨id, "oracle_call", 2, 3, question, context, urgency, ts, "timeout"⟩)
        (lookupKey_setKey_self id _ _) hnr
    · exact archRespRecords_archive_some aStamp id _
        (some ⟨id, "oracle_response", question, answer, "oracle", tsR⟩)
        (lookupKey_setKey_self id _ _) hns
    · exact openHasB_archive_self aStamp id _

/-- C3 counterexample: with `timeout_seconds = 5` the in-budget polls run at
0s, 2s and 4s; a response recorded in the final wait after the 4s poll —
before the 5s deadline, e.g. at 4.5s — is written to the store (and ends up
archived by the timeout path, timestamped record and all) yet `oracle_call`
returns the timeout message, not the recorded answer: a response written
before the timeout elapses does not guarantee a success result. -/
theorem C3_counterexample :
    (oracle_call "q" "" "normal" 5 "a" "T0" "H0"
        (respondSched 3 "a" "yes" "T1") emptyBus).result =
      .ok "Oracle call timed out after 5s. The oracle did not respond. Request ID: a" ∧
    archRespRecords (oracle_call "q" "" "normal" 5 "a" "T0" "H0"
        (respondSched 3 "a" "yes" "T1") emptyBus).state "a" =
      [some ⟨"a", "oracle_response", "q", "yes", "oracle", "T1"⟩] ∧
    archReqRecords (oracle_call "q" "" "normal" 5 "a" "T0" "H0"
        (respondSched 3 "a" "yes" "T1") emptyBus).state "a" =
      [some ⟨"a", "oracle_call", 2, 3, "q", "", "normal", "T0", "timeout"⟩] := by
  refine ⟨by decide, by decide, by decide⟩

theorem C3_response_before_timeout_witness :
    ((oracle_call "q" "" "normal" 10 "a" "T0" "H0"
        (respondSched 1 "a" "yes" "T1") emptyBus).result =
      .ok ("Oracle response (oracle): " ++ "yes") ∧
    archReqRecords (oracle_call "q" "" "normal" 10 "a" "T0" "H0"
        (respondSched 1 "a" "yes" "T1") emptyBus).state "a" =
      [some ⟨"a", "oracle_call", 2, 3, "q", "", "normal", "T0", "pending"⟩] ∧
    archRespRecords (oracle_call "q" "" "normal" 10 "a" "T0" "H0"
        (respondSched 1 "a" "yes" "T1") emptyBus).state "a" =
      [some ⟨"a", "oracle_response", "q", "yes", "oracle", "T1"⟩] ∧
    openHasB (oracle_call "q" "" "normal" 10 "a" "T0" "H0"
        (respondSched 1 "a" "yes" "T1") emptyBus).state "a" = false) ∧
    ((oracle_call "q" "" "normal" 10 "a" "T0" "H0"
        (respondSched (numPolls 10) "a" "yes" "T1") emptyBus).result =
      .ok ("Oracle call timed out after " ++ toString (10 : Int) ++
           "s. The oracle did not respond. Request ID: " ++ "a") ∧
    archReqRecords (oracle_call "q" "" "normal" 10 "a" "T0" "H0"
        (respondSched (numPolls 10) "a" "yes" "T1") emptyBus).state "a" =
      [some ⟨"a", "oracle_call", 2, 3, "q", "", "normal", "T0", "timeout"⟩] ∧
    archRespRecords (oracle_call "q" "" "normal" 10 "a" "T0" "H0"
        (respondSched (numPolls 10) "a" "yes" "T1") emptyBus).state "a" =
      [some ⟨"a", "oracle_response", "q", "yes", "oracle", "T1"⟩] ∧
    openHasB (oracle_call "q" "" "normal" 10 "a" "T0" "H0"
        (respondSched (numPolls 10) "a" "yes" "T1") emptyBus).state "a" = false) :=
  ⟨(C3_response_before_timeout "q" "" "normal" "yes" 10 "a" "T0" "T1" "H0" emptyBus
      rfl (fun _ hm => nomatch hm) (fun _ hm => nomatch hm)).1 1 (by decide),
   (C3_response_before_timeout "q" "" "normal" "yes" 10 "a" "T0" "T1" "H0" emptyBus
      rfl (fun _ hm => nomatch hm) (fun _ hm => nomatch hm)).2 (by decide)⟩

/-! ## Poll/sleep accounting -/

theorem pollLoop_counts (id aStamp : String) (rd : ReqRecord) (t : Int)
    (sched : Nat → BusState → BusState) :
    ∀ (fuel k : Nat) (s : BusState),
      (pollLoop id aStamp rd t sched k fuel s).sleeps ≤ fuel ∧
      (pollLoop id aStamp rd t sched k fuel s).polls ≤ fuel ∧
      (pollLoop id aStamp rd t sched k fuel s).polls ≤
        (pollLoop id aStamp rd t sched k fuel s).sleeps + 1 := by
  intro fuel
  induction fuel with
  | zero => intro k s; simp [pollLoop]
  | succ n ih =>
      intro k s
      cases hr : read_response id (sched k s) with
      | none =>
          obtain ⟨ha, hb, hc⟩ := ih (k + 1) (sched k s)
          simp only [pollLoop, hr]
          refine ⟨?_, ?_, ?_⟩ <;> omega
      | some c => cases c <;> simp [pollLoop, hr]

theorem two_numPolls_le (t : Int) : 2 * (numPolls t : Int) ≤ max t 0 + 1 := by
  unfold numPolls
  rcases le_or_lt t 0 with ht | ht
  · rw [if_pos ht]
    have hmax : (0 : Int) ≤ max t 0 := le_max_right t 0
    simp only [Nat.cast_zero]
    omega
  · rw [if_neg (by omega)]
    have hnn : (0 : Int) ≤ (t + 1) / 2 := by omega
    rw [Int.toNat_of_nonneg hnn]
    have hmax : max t 0 = t := max_eq_left (by omega)
    rw [hmax]
    omega

/-- C5 (amended): every `oracle_call` run terminates with exactly one
result by construction; a full poll-interval sleep separates consecutive
polls (`polls ≤ sleeps + 1`), so the loop never polls faster than the
2-second interval; and the wall-clock wait, `2 * sleeps` seconds, is at
most `max timeout_seconds 0 + 1` — i.e. below timeout plus one poll
interval. The timeout itself is NOT a hard upper bound: a trailing sleep
can push the wait past it (see the counterexample). -/
theorem C5_wait_bounded_by_timeout_plus_interval (question context urgency : String)
    (t : Int) (id ts aStamp : String) (sched : Nat → BusState → BusState)
    (s0 : BusState) :
    2 * ((oracle_call question context urgency t id ts aStamp sched s0).sleeps : Int) ≤
      max t 0 + 1 ∧
    (oracle_call question context urgency t id ts aStamp sched s0).polls ≤
      (oracle_call question context urgency t id ts aStamp sched s0).sleeps + 1 := by
  simp only [oracle_call]
  obtain ⟨ha, hb, hc⟩ := pollLoop_counts id aStamp
    ⟨id, "oracle_call", 2, 3, question, context, urgency, ts, "pending"⟩ t sched
    (numPolls t) 0
    (write_request id ⟨id, "oracle_call", 2, 3, question, context, urgency, ts, "pending"⟩ s0)
  refine ⟨?_, hc⟩
  have h2 := two_numPolls_le t
  omega

/-- C5 counterexample: with `timeout_seconds = 5` and no responder, the call
executes three polls (at elapsed 0s, 2s, 4s) and three 2-second sleeps, so
it returns after 6 seconds of wall-clock wait — exceeding the 5-second
timeout by a trailing poll-interval sleep. -/
theorem C5_counterexample :
    (oracle_call "q" "" "normal" 5 "a" "T0" "H0" idSched emptyBus).sleeps = 3 ∧
    ¬ (2 * ((oracle_call "q" "" "normal" 5 "a" "T0" "H0" idSched emptyBus).sleeps : Int) ≤ 5) := by
  refine ⟨by decide, by decide⟩

/-- C9: with `timeout_seconds ≤ 0` the loop condition fails at once: no
`_read_response` lookup and no sleep happens (regardless of the responder
schedule or the store — in particular even if a matching response record is
already present), the request is rewritten with status timeout, archived,
and the timeout result returned. -/
theorem C9_nonpositive_timeout (question context urgency : String) (t : Int)
    (id ts aStamp : String) (sched : Nat → BusState → BusState) (s0 : BusState)
    (ht : t ≤ 0) :
    oracle_call question context urgency t id ts aStamp sched s0 =
      ⟨.ok ("Oracle call timed out after " ++ toString t ++
            "s. The oracle did not respond. Request ID: " ++ id),
       archive_exchange aStamp id
         (write_request id
           ⟨id, "oracle_call", 2, 3, question, context, urgency, ts, "timeout"⟩
           (write_request id
             ⟨id, "oracle_call", 2, 3, question, context, urgency, ts, "pending"⟩ s0)),
       0, 0⟩ := by
  unfold oracle_call
  have h0 : numPolls t = 0 := by unfold numPolls; simp [ht]
  rw [h0]
  rfl

theorem C9_nonpositive_timeout_witness :
    (0 : Int) ≤ 0 ∧
    (lookupKey "a"
      (⟨[("a", some ⟨"a", "oracle_call", 2, 3, "q", "", "normal", "T0", "pending"⟩)],
        [("a", some ⟨"a", "oracle_response", "q", "early", "oracle", "T1"⟩)],
        []⟩ : BusState).responses).isSome = true ∧
    oracle_call "q" "" "normal" 0 "a" "T0" "H0" idSched
      (⟨[("a", some ⟨"a", "oracle_call", 2, 3, "q", "", "normal", "T0", "pending"⟩)],
        [("a", some ⟨"a", "oracle_response", "q", "early", "oracle", "T1"⟩)],
        []⟩ : BusState) =
      ⟨.ok ("Oracle call timed out after " ++ toString (0 : Int) ++
            "s. The oracle did not respond. Request ID: " ++ "a"),
       archive_exchange "H0" "a"
         (write_request "a"
           ⟨"a", "oracle_call", 2, 3, "q", "", "normal", "T0", "timeout"⟩
           (write_request "a"
             ⟨"a", "oracle_call", 2, 3, "q", "", "normal", "T0", "pending"⟩
             (⟨[("a", some ⟨"a", "oracle_call", 2, 3, "q", "", "normal", "T0", "pending"⟩)],
               [("a", some ⟨"a", "oracle_response", "q", "early", "oracle", "T1"⟩)],
               []⟩ : BusState))),
       0, 0⟩ :=
  ⟨le_refl 0, by decide,
   C9_nonpositive_timeout "q" "" "normal" 0 "a" "T0" "H0" idSched
     (⟨[("a", some ⟨"a", "oracle_call", 2, 3, "q", "", "normal", "T0", "pending"⟩)],
       [("a", some ⟨"a", "oracle_response", "q", "early", "oracle", "T1"⟩)],
       []⟩ : BusState) (le_refl 0)⟩

/-! ## C7: malformed records and the listing operations -/

theorem mem_insertByKey {α : Type} (p x : String × α) (l : List (String × α)) :
    x ∈ insertByKey p l → x = p ∨ x ∈ l := by
  induction l with
  | nil => intro hx; simp [insertByKey] at hx; exact Or.inl hx
  | cons q rest ih =>
      intro hx
      by_cases hlt : strLt q.1 p.1
      · simp only [insertByKey, hlt, if_true] at hx
        rcases List.mem_cons.mp hx with hx | hx
        · exact Or.inr (by simp [hx])
        · rcases ih hx with hx | hx
          · exact Or.inl hx
          · exact Or.inr (by simp [hx])
      · simp only [insertByKey, hlt, if_false] at hx
        rcases List.mem_cons.mp hx with hx | hx
        · exact Or.inl hx
        · exact Or.inr hx

theorem mem_sortByKey {α : Type} (x : String × α) (l : List (String × α)) :
    x ∈ sortByKey l → x ∈ l := by
  induction l with
  | nil => intro hx; simp [sortByKey] at hx
  | cons q rest ih =>
      intro hx
      rcases mem_insertByKey q x (sortByKey rest) hx with hx | hx
      · simp [hx]
      · exact List.mem_cons_of_mem q (ih hx)

theorem mem_insertDirDesc (g x : HistDir) (l : List HistDir) :
    x ∈ insertDirDesc g l → x = g ∨ x ∈ l := by
  induction l with
  | nil => intro hx; simp [insertDirDesc] at hx; exact Or.inl hx
  | cons q rest ih =>
      intro hx
      by_cases hlt : strLt g.name q.name
      · simp only [insertDirDesc, hlt, if_true] at hx
        rcases List.mem_cons.mp hx with hx | hx
        · exact Or.inr (by simp [hx])
        · rcases ih hx with hx | hx
          · exact Or.inl hx
          · exact Or.inr (by simp [hx])
      · simp only [insertDirDesc, hlt, if_false] at hx
        rcases List.mem_cons.mp hx with hx | hx
        · exact Or.inl hx
        · exact Or.inr hx

theorem mem_sortDirsDesc (x : HistDir) (l : List HistDir) :
    x ∈ sortDirsDesc l → x ∈ l := by
  induction l with
  | nil => intro hx; simp [sortDirsDesc] at hx
  | cons q rest ih =>
      intro hx
      rcases mem_insertDirDesc q x (sortDirsDesc rest) hx with hx | hx
      · simp [hx]
      · exact List.mem_cons_of_mem q (ih hx)

theorem statusPendingLines_isOk (l : List (String × Option ReqRecord))
    (h : ∀ p ∈ l, p.2.isSome = true) :
    ∃ ls, statusPendingLines l = .ok ls := by
  induction l with
  | nil => exact ⟨[], rfl⟩
  | cons p rest ih =>
      obtain ⟨k, v⟩ := p
      cases v with
      | none => cases (by simpa using h (k, none) (by simp) : False)
      | some req =>
          obtain ⟨ls, hls⟩ := ih (fun q hq => h q (by simp [hq]))
          exact ⟨_, by unfold statusPendingLines; rw [hls]; rfl⟩

theorem pendingBlocks_isOk (l : List (String × Option ReqRecord))
    (h : ∀ p ∈ l, p.2.isSome = true) :
    ∃ ls, pendingBlocks l = .ok ls := by
  induction l with
  | nil => exact ⟨[], rfl⟩
  | cons p rest ih =>
      obtain ⟨k, v⟩ := p
      cases v with
      | none => cases (by simpa using h (k, none) (by simp) : False)
      | some req =>
          obtain ⟨ls, hls⟩ := ih (fun q hq => h q (by simp [hq]))
          exact ⟨_, by unfold pendingBlocks; rw [hls]; rfl⟩

theorem histReqLines_isOk (l : List (String × Option ReqRecord))
    (h : ∀ p ∈ l, p.2.isSome = true) :
    ∃ ls, histReqLines l = .ok ls := by
  induction l with
  | nil => exact ⟨[], rfl⟩
  | cons p rest ih =>
      obtain ⟨k, v⟩ := p
      cases v with
      | none => cases (by simpa using h (k, none) (by simp) : False)
      | some req =>
          obtain ⟨ls, hls⟩ := ih (fun q hq => h q (by simp [hq]))
          exact ⟨_, by unfold histReqLines; rw [hls]; rfl⟩

theorem histRespLines_isOk (l : List (String × Option RespRecord))
    (h : ∀ p ∈ l, p.2.isSome = true) :
    ∃ ls, histRespLines l = .ok ls := by
  induction l with
  | nil => exact ⟨[], rfl⟩
  | cons p rest ih =>
      obtain ⟨k, v⟩ := p
      cases v with
      | none => cases (by simpa using h (k, none) (by simp) : False)
      | some resp =>
          obtain ⟨ls, hls⟩ := ih (fun q hq => h q (by simp [hq]))
          exact ⟨_, by unfold histRespLines; rw [hls]; rfl⟩

theorem histDirLines_isOk (l : List HistDir)
    (h : ∀ d ∈ l, (∀ p ∈ d.hreqs, p.2.isSome = true) ∧
                  (∀ p ∈ d.hresps, p.2.isSome = true)) :
    ∃ ls, histDirLines l = .ok ls := by
  induction l with
  | nil => exact ⟨[], rfl⟩
  | cons d rest ih =>
      obtain ⟨lr, hlr⟩ := histReqLines_isOk d.hreqs (h d (by simp)).1
      obtain ⟨lp, hlp⟩ := histRespLines_isOk d.hresps (h d (by simp)).2
      obtain ⟨ls, hls⟩ := ih (fun g hg => h g (by simp [hg]))
      exact ⟨_, by unfold histDirLines; rw [hlr, hlp, hls]; rfl⟩

theorem lookupKey_mem {α : Type} {k : String} {v : α} (l : List (String × α))
    (h : lookupKey k l = some v) : (k, v) ∈ l := by
  induction l with
  | nil => cases h
  | cons p rest ih =>
      obtain ⟨a, b⟩ := p
      cases ha : a == k with
      | false =>
          simp only [lookupKey, ha, Bool.false_eq_true, if_false] at h
          exact List.mem_cons_of_mem _ (ih h)
      | true =>
          have hak : a = k := eq_of_beq ha
          simp only [lookupKey, ha, if_true] at h
          cases h
          subst hak
          exact List.mem_cons_self _ _

theorem pollLoop_idSched_result_isOk (id aStamp : String) (rd : ReqRecord) (t : Int)
    (s : BusState) (h : ∀ p ∈ s.responses, p.2.isSome = true) :
    ∀ (fuel k : Nat), ((pollLoop id aStamp rd t idSched k fuel s).result).isOk = true := by
  intro fuel
  induction fuel with
  | zero => intro k; rfl
  | succ n ih =>
      intro k
      cases hr : read_response id s with
      | none =>
          simp only [pollLoop, idSched, hr]
          exact ih (k + 1)
      | some c =>
          cases c with
          | none =>
              have hmem := lookupKey_mem s.responses hr
              have hfalse := h (id, none) hmem
              simp at hfalse
          | some r => simp [pollLoop, idSched, hr, CallResult.isOk]

/-- C7 (amended): when every stored record parses, each exposed operation
returns a result string (`oracle_call` here with no responder
interference); but a stored record that fails to parse makes the listing
pass raise a `JSONDecodeError` — the code has no skip-and-log handling —
as the counterexample shows. -/
theorem C7_ops_ok_on_wellformed_store (busDir : String) (limit : Nat)
    (rid answer tsR question context urgency ts aStamp : String) (t : Int)
    (s : BusState) (hwf : wellFormedB s = true) :
    (bus_status busDir s).isOk = true ∧
    (list_pending_calls s).isOk = true ∧
    (bus_history limit s).isOk = true ∧
    ((respond_to_oracle_call rid answer tsR s).1).isOk = true ∧
    ((oracle_call question context urgency t rid ts aStamp idSched s).result).isOk
      = true := by
  have hwf' := hwf
  simp only [wellFormedB, Bool.and_eq_true, List.all_eq_true] at hwf'
  obtain ⟨⟨hq, hp⟩, hh⟩ := hwf'
  refine ⟨?_, ?_, ?_, ?_, ?_⟩
  · cases hEmp : s.requests.isEmpty with
    | true => simp [bus_status, hEmp, CallResult.isOk]
    | false =>
        obtain ⟨ls, hls⟩ := statusPendingLines_isOk (sortByKey s.requests)
          (fun p hmem => hq p (mem_sortByKey p s.requests hmem))
        simp [bus_status, hEmp, hls, CallResult.isOk]
  · cases hEmp : s.requests.isEmpty with
    | true => simp [list_pending_calls, hEmp, CallResult.isOk]
    | false =>
        obtain ⟨ls, hls⟩ := pendingBlocks_isOk (sortByKey s.requests)
          (fun p hmem => hq p (mem_sortByKey p s.requests hmem))
        simp [list_pending_calls, hEmp, hls, CallResult.isOk]
  · cases hEmp : ((sortDirsDesc s.history).take limit).isEmpty with
    | true => simp [bus_history, hEmp, CallResult.isOk]
    | false =>
        obtain ⟨ls, hls⟩ := histDirLines_isOk ((sortDirsDesc s.history).take limit)
          (fun d hmem =>
            (hh d (mem_sortDirsDesc d s.history (List.take_subset _ _ hmem))))
        simp [bus_history, hEmp, hls, CallResult.isOk]
  · cases hr : lookupKey rid s.requests with
    | none => simp [respond_to_oracle_call, hr, CallResult.isOk]
    | some c =>
        cases c with
        | none =>
            have hmem := lookupKey_mem s.requests hr
            have hfalse := hq (rid, none) hmem
            simp at hfalse
        | some rd => simp [respond_to_oracle_call, hr, CallResult.isOk]
  · simp only [oracle_call]
    exact pollLoop_idSched_result_isOk rid aStamp
      ⟨rid, "oracle_call", 2, 3, question, context, urgency, ts, "pending"⟩ t
      (write_request rid
        ⟨rid, "oracle_call", 2, 3, question, context, urgency, ts, "pending"⟩ s)
      hp (numPolls t) 0

/-- C7 counterexample: a store holding one malformed request file (and one
good one) makes `list_pending_calls` and `bus_status` raise a
`JSONDecodeError` instead of skipping the bad record, and likewise
`bus_history` for a malformed archived record: the operation terminates
without returning a result string, and the good records are hidden. -/
theorem C7_counterexample :
    list_pending_calls
      ⟨[("aa", none),
        ("bb", some ⟨"bb", "oracle_call", 2, 3, "q2", "", "normal", "T", "pending"⟩)],
       [], []⟩ = .raised "json.decoder.JSONDecodeError" ∧
    (list_pending_calls
      ⟨[("aa", none),
        ("bb", some ⟨"bb", "oracle_call", 2, 3, "q2", "", "normal", "T", "pending"⟩)],
       [], []⟩).isOk = false ∧
    (bus_status "B"
      ⟨[("aa", none)], [], []⟩).isOk = false ∧
    (bus_history 10
      ⟨[], [], [⟨"H0", [("aa", none)], []⟩]⟩).isOk = false := by
  refine ⟨by decide, by decide, by decide, by decide⟩

theorem C7_ops_ok_on_wellformed_store_witness :
    wellFormedB
      (⟨[("bb", some ⟨"bb", "oracle_call", 2, 3, "q2", "", "normal", "T", "pending"⟩)],
        [], [⟨"H0", [("aa", some ⟨"aa", "oracle_call", 2, 3, "q1", "", "high", "T0", "timeout"⟩)],
              []⟩]⟩ : BusState) = true ∧
    ((bus_status "B"
        (⟨[("bb", some ⟨"bb", "oracle_call", 2, 3, "q2", "", "normal", "T", "pending"⟩)],
          [], [⟨"H0", [("aa", some ⟨"aa", "oracle_call", 2, 3, "q1", "", "high", "T0", "timeout"⟩)],
                []⟩]⟩ : BusState)).isOk = true ∧
    (list_pending_calls
        (⟨[("bb", some ⟨"bb", "oracle_call", 2, 3, "q2", "", "normal", "T", "pending"⟩)],
          [], [⟨"H0", [("aa", some ⟨"aa", "oracle_call", 2, 3, "q1", "", "high", "T0", "timeout"⟩)],
                []⟩]⟩ : BusState)).isOk = true ∧
    (bus_history 10
        (⟨[("bb", some ⟨"bb", "oracle_call", 2, 3, "q2", "", "normal", "T", "pending"⟩)],
          [], [⟨"H0", [("aa", some ⟨"aa", "oracle_call", 2, 3, "q1", "", "high", "T0", "timeout"⟩)],
                []⟩]⟩ : BusState)).isOk = true ∧
    ((respond_to_oracle_call "bb" "yes" "T2"
        (⟨[("bb", some ⟨"bb", "oracle_call", 2, 3, "q2", "", "normal", "T", "pending"⟩)],
          [], [⟨"H0", [("aa", some ⟨"aa", "oracle_call", 2, 3, "q1", "", "high", "T0", "timeout"⟩)],
                []⟩]⟩ : BusState)).1).isOk = true ∧
    ((oracle_call "q3" "" "low" 3 "cc" "T3" "H1" idSched
        (⟨[("bb", some ⟨"bb", "oracle_call", 2, 3, "q2", "", "normal", "T", "pending"⟩)],
          [], [⟨"H0", [("aa", some ⟨"aa", "oracle_call", 2, 3, "q1", "", "high", "T0", "timeout"⟩)],
                []⟩]⟩ : BusState)).result).isOk = true) :=
  ⟨by decide,
   C7_ops_ok_on_wellformed_store "B" 10 "bb" "yes" "T2" "q3" "" "low" "T3" "H1" 3 _
     (by decide)⟩
